import Mathlib

/-!
Shallow embedding of the simulation core of the roguelike engine (src/main.rs),
together with theorems checking the natural-language specification against it.

Conventions of the embedding:
* Rust `i32` values are modelled as `Int` (no arithmetic in the program comes
  near the `i32` range, all coordinates live in `0..80` × `0..43`).
* `Vec<Vec<Tile>>` is a `List (List Tile)`; a panicking index is modelled by an
  `Option`-valued lookup returning `none` (`tile_lookup`), and functions whose
  Rust counterpart can panic (out-of-range index, failing `assert_ne!`,
  `split_at_mut`-based pair access with an empty left half) return `Option`.
* The tcod library pieces are externalized: colors become an inductive palette
  type, the field-of-view set computed by tcod is an arbitrary predicate
  parameter `fov : Int → Int → Bool`, drawing calls are dropped (they do not
  touch the simulation state), and the message log keeps the exact strings the
  game formats.
* Randomness is externalized: each random sample the generator draws becomes an
  explicit field of a choice record, and the generation functions take the list
  of samples as an argument.
-/

namespace Roguelike

/-- Model of the external tcod `Color` type: the named palette constants used by
the entity/messaging code plus raw rgb triples (used by the map color
constants). Only identity of colors matters to the spec claims. -/
inductive Color where
  | white
  | red
  | orange
  | darkRed
  | desaturatedGreen
  | darkerRed
  | rgb (r g b : Nat)
  deriving DecidableEq

/-- `enum PlayerAction` from src/main.rs. -/
inductive PlayerAction where
  | TookTurn
  | DidntTakeTurn
  | Exit
  deriving DecidableEq

/-- `enum DeathCallback` from src/main.rs. -/
inductive DeathCallback where
  | Player
  | Monster
  deriving DecidableEq

/-- `struct Fighter` from src/main.rs. -/
structure Fighter where
  max_hp : Int
  hp : Int
  defense : Int
  attack : Int
  on_death : DeathCallback
  deriving DecidableEq

/-- `struct Ai;` (a unit marker struct) from src/main.rs. -/
structure Ai where
  deriving DecidableEq

/-- `struct Object` from src/main.rs. -/
structure Object where
  x : Int
  y : Int
  char : Char
  color : Color
  name : String
  fighter : Option Fighter
  ai : Option Ai
  is_walkable : Bool
  is_alive : Bool
  was_seen : Bool
  deriving DecidableEq

/-- `struct Tile` from src/main.rs. -/
structure Tile where
  is_walkable : Bool
  is_transparent : Bool
  explored : Bool
  deriving DecidableEq

/-- `Tile::empty()`. -/
def Tile.empty : Tile :=
  { is_walkable := true, is_transparent := true, explored := false }

/-- `Tile.wall()`. -/
def Tile.wall : Tile :=
  { is_walkable := false, is_transparent := false, explored := false }

/-- `type Map = Vec<Vec<Tile>>` (indexed `map[x][y]`). -/
abbrev GameMap := List (List Tile)

/-- `struct Messages` (a vector of message/color pairs, appended at the end). -/
abbrev Messages := List (String × Color)

/-- `Messages::add`. -/
def Messages.add (m : Messages) (s : String) (c : Color) : Messages :=
  m ++ [(s, c)]

/-- `struct Game` from src/main.rs (the map plus the message log). -/
structure Game where
  map : GameMap
  messages : Messages
  deriving DecidableEq

/-- `const PLAYER: usize = 0`. -/
def PLAYER : Nat := 0

/-- `const MAP_WIDTH: i32 = 80`. -/
def MAP_WIDTH : Int := 80

/-- `const MAP_HEIGHT: i32 = 43`. -/
def MAP_HEIGHT : Int := 43

/-- `const MAX_ROOMS: i32 = 30`. -/
def MAX_ROOMS : Int := 30

/-- `const MIN_ROOM_WIDTH: i32 = 6`. -/
def MIN_ROOM_WIDTH : Int := 6

/-- `const MAX_ROOM_WIDTH: i32 = 15`. -/
def MAX_ROOM_WIDTH : Int := 15

/-- `const MIN_ROOM_HEIGHT: i32 = 5`. -/
def MIN_ROOM_HEIGHT : Int := 5

/-- `const MAX_ROOM_HEIGHT: i32 = 10`. -/
def MAX_ROOM_HEIGHT : Int := 10

/-- `const MAX_ROOM_MONSTERS: i32 = 3`. -/
def MAX_ROOM_MONSTERS : Int := 3

/-- `Object::pos`. -/
def Object.pos (o : Object) : Int × Int :=
  (o.x, o.y)

/-- `Object::set_pos`. -/
def Object.set_pos (o : Object) (x y : Int) : Object :=
  { o with x := x, y := y }

/-- `fn player_death`: the Player death-callback variant. It adds a message and
changes glyph and color only. -/
def player_death (player : Object) (game : Game) : Object × Game :=
  ({ player with char := '%', color := Color.darkRed },
   { game with messages := game.messages.add "You died!" Color.red })

/-- `fn monster_death`: the Monster death-callback variant. -/
def monster_death (monster : Object) (game : Game) : Object × Game :=
  ({ monster with
      char := '%', color := Color.darkRed, is_walkable := true,
      fighter := none, ai := none, name := "remains of " ++ monster.name },
   { game with messages := game.messages.add (monster.name ++ " is dead!") Color.orange })

/-- `DeathCallback::callback`. -/
def DeathCallback.callback : DeathCallback → Object → Game → Object × Game
  | DeathCallback.Player => player_death
  | DeathCallback.Monster => monster_death

/-- `Object::take_damage`. The early return on `damage <= 0` and the missing
`fighter` case leave both the object and the game untouched. -/
def Object.take_damage (self : Object) (damage : Int) (game : Game) : Object × Game :=
  if damage ≤ 0 then (self, game)
  else
    match self.fighter with
    | none => (self, game)
    | some fighter =>
      if damage ≥ fighter.hp then
        fighter.on_death.callback
          { self with fighter := some { fighter with hp := 0 }, is_alive := false } game
      else
        ({ self with fighter := some { fighter with hp := fighter.hp - damage } }, game)

/-- `Object::attack`. Returns the updated defender and game; the attacker is
taken by shared reference in the source and never changes. -/
def Object.attack (self : Object) (other : Object) (game : Game) : Object × Game :=
  let damage := (self.fighter.map Fighter.attack).getD 0 -
    (other.fighter.map Fighter.defense).getD 0
  if damage > 0 then
    let msg := self.name ++ " attacks " ++ other.name ++ " for " ++ toString damage ++ " damage"
    other.take_damage damage { game with messages := game.messages.add msg Color.white }
  else
    let msg := self.name ++ " attacks " ++ other.name ++ " but it has no effect!"
    (other, { game with messages := game.messages.add msg Color.white })

/-- `Object::grid_distance_to`: Chebyshev distance `max(|dx|, |dy|)`. -/
def Object.grid_distance_to (self other : Object) : Int :=
  max |other.x - self.x| |other.y - self.y|

/-- `fn normalize`: sign of an axis delta. -/
def normalize (delta : Int) : Int :=
  if delta = 0 then 0 else if 1 ≤ delta then 1 else -1

/-- Lookup of `map[x as usize][y as usize]`; `none` models the Rust panic on an
out-of-range index (a negative `i32` cast to `usize` is far out of range). -/
def tile_lookup (map : GameMap) (x y : Int) : Option Tile :=
  if x < 0 ∨ y < 0 then none
  else
    match map[x.toNat]? with
    | none => none
    | some col => col[y.toNat]?

/-- `fn is_blocked_by_object`. -/
def is_blocked_by_object (x y : Int) (objects : List Object) : Bool :=
  objects.any (fun o => !o.is_walkable && o.x == x && o.y == y)

/-- `fn is_blocked`; `none` models the tile-index panic. -/
def is_blocked (map : GameMap) (x y : Int) (objects : List Object) : Option Bool :=
  match tile_lookup map x y with
  | none => none
  | some t => if !t.is_walkable then some true else some (is_blocked_by_object x y objects)

/-- `fn move_by`. The bounds test `(0..MAP_WIDTH).contains(&next_x) && ...`
short-circuits before `is_blocked`, so the tile lookup only happens in range. -/
def move_by (id : Nat) (dx dy : Int) (map : GameMap) (objects : List Object) :
    Option (PlayerAction × List Object) :=
  match objects[id]? with
  | none => none
  | some obj =>
    let next_x := obj.x + dx
    let next_y := obj.y + dy
    if 0 ≤ next_x ∧ next_x < MAP_WIDTH ∧ 0 ≤ next_y ∧ next_y < MAP_HEIGHT then
      match is_blocked map next_x next_y objects with
      | none => none
      | some true => some (PlayerAction.DidntTakeTurn, objects)
      | some false => some (PlayerAction.TookTurn, objects.set id (obj.set_pos next_x next_y))
    else some (PlayerAction.DidntTakeTurn, objects)

/-- `fn move_towards`: try the diagonal step, then the horizontal-only step,
then the vertical-only step; a failed `move_by` leaves the state unchanged. -/
def move_towards (id : Nat) (target_x target_y : Int) (map : GameMap)
    (objects : List Object) : Option (List Object) :=
  match objects[id]? with
  | none => none
  | some obj =>
    let dx := normalize (target_x - obj.x)
    let dy := normalize (target_y - obj.y)
    match move_by id dx dy map objects with
    | none => none
    | some (a1, objects1) =>
      if a1 = PlayerAction.DidntTakeTurn then
        match move_by id dx 0 map objects1 with
        | none => none
        | some (a2, objects2) =>
          if a2 = PlayerAction.DidntTakeTurn then
            match move_by id 0 dy map objects2 with
            | none => none
            | some (_, objects3) => some objects3
          else some objects2
      else some objects1

/-- `fn ai_take_turn`. `none` models the `assert_ne!(id, PLAYER)` panic and
index panics. In the adjacent case the attack runs only when the player has a
`Fighter` with positive hp (`map_or(false, |f| f.hp > 0)`); it mutates the
player (index `PLAYER`) and the game only. -/
def ai_take_turn (id : Nat) (game : Game) (objects : List Object) :
    Option (Game × List Object) :=
  if id = PLAYER then none
  else
    match objects[id]?, objects[PLAYER]? with
    | some mob, some player =>
      if mob.grid_distance_to player > 1 then
        match move_towards id player.x player.y game.map objects with
        | none => none
        | some objects' => some (game, objects')
      else
        match player.fighter with
        | some f =>
          if 0 < f.hp then
            let (player', game') := mob.attack player game
            some (game', objects.set PLAYER player')
          else some (game, objects)
        | none => some (game, objects)
    | _, _ => none

/-- `fn player_move_or_attack`. The target search takes the first object at the
destination tile whose `fighter` is present; `none` models the panic of
`split_at_mut(0)` (empty left half) that would occur if the found target were
the player slot itself. -/
def player_move_or_attack (dx dy : Int) (game : Game) (objects : List Object) :
    Option (PlayerAction × Game × List Object) :=
  match objects[PLAYER]? with
  | none => none
  | some player =>
    let next_x := player.x + dx
    let next_y := player.y + dy
    match List.findIdx? (fun o => o.x == next_x && o.y == next_y && o.fighter.isSome) objects with
    | some target_id =>
      if target_id = 0 then none
      else
        match objects[target_id]? with
        | none => none
        | some target =>
          let (target', game') := player.attack target game
          some (PlayerAction.TookTurn, game', objects.set target_id target')
    | none =>
      match move_by PLAYER dx dy game.map objects with
      | none => none
      | some (action, objects') => some (action, game, objects')

/-- `struct Rect`. -/
structure Rect where
  x1 : Int
  y1 : Int
  x2 : Int
  y2 : Int
  deriving DecidableEq

/-- `Rect::new`. -/
def Rect.new (x y w h : Int) : Rect :=
  { x1 := x, y1 := y, x2 := x + w, y2 := y + h }

/-- `Rect::center` (Rust `i32` division truncates toward zero, `Int.tdiv`). -/
def Rect.center (r : Rect) : Int × Int :=
  (Int.tdiv (r.x1 + r.x2) 2, Int.tdiv (r.y1 + r.y2) 2)

/-- `Rect::intersects_with`: the inclusive overlap test. -/
def Rect.intersects_with (self other : Rect) : Bool :=
  decide (self.x1 ≤ other.x2) && decide (self.x2 ≥ other.x1) &&
  decide (self.y1 ≤ other.y2) && decide (self.y2 ≥ other.y1)

/-- The assignment `map[x as usize][y as usize] = t`. The out-of-range cases
(which would panic in Rust) leave the map unchanged; every write performed
under the theorems' hypotheses is in range. -/
def set_tile (m : GameMap) (x y : Int) (t : Tile) : GameMap :=
  if x < 0 ∨ y < 0 then m
  else
    match m[x.toNat]? with
    | none => m
    | some col => m.set x.toNat (col.set y.toNat t)

/-- The list of `Int`s from `a` (inclusive) up to `b` (exclusive), modelling a
Rust `a..b` loop range. -/
def range_i (a b : Int) : List Int :=
  (List.range (b - a).toNat).map (fun i : Nat => a + i)

/-- `fn make_room`: carve the interior `(x1+1..x2) × (y1+1..y2)`. -/
def make_room (room : Rect) (m : GameMap) : GameMap :=
  (range_i (room.x1 + 1) room.x2).foldl (fun m x =>
    (range_i (room.y1 + 1) room.y2).foldl (fun m y => set_tile m x y Tile.empty) m) m

/-- `fn make_h_tunnel`: carve `min(x1,x2)..=max(x1,x2)` at row `y`. -/
def make_h_tunnel (x1 x2 y : Int) (m : GameMap) : GameMap :=
  (range_i (min x1 x2) (max x1 x2 + 1)).foldl (fun m x => set_tile m x y Tile.empty) m

/-- `fn make_v_tunnel`: carve `min(y1,y2)..=max(y1,y2)` at column `x`. -/
def make_v_tunnel (y1 y2 x : Int) (m : GameMap) : GameMap :=
  (range_i (min y1 y2) (max y1 y2 + 1)).foldl (fun m y => set_tile m x y Tile.empty) m

/-- `Object::new`. -/
def Object.new (x y : Int) (char : Char) (name : String) (color : Color) : Object :=
  { x := x, y := y, char := char, color := color, name := name,
    fighter := none, ai := none, is_walkable := false, is_alive := true, was_seen := false }

/-- The orc branch of `place_objects`. -/
def make_orc (x y : Int) : Object :=
  let orc := Object.new x y 'o' "orc" Color.desaturatedGreen
  { orc with
      fighter := some { max_hp := 10, hp := 10, defense := 0, attack := 3, on_death := DeathCallback.Monster },
      ai := some ⟨⟩ }

/-- The troll branch of `place_objects`. -/
def make_troll (x y : Int) : Object :=
  let troll := Object.new x y 'T' "troll" Color.darkerRed
  { troll with
      fighter := some { max_hp := 16, hp := 16, defense := 1, attack := 4, on_death := DeathCallback.Monster },
      ai := some ⟨⟩ }

/-- One monster sample of `place_objects`: the sampled position and the outcome
of the `rand::random::<f32>() < 0.8` archetype roll. -/
structure MonsterChoice where
  x : Int
  y : Int
  isOrc : Bool
  deriving DecidableEq

/-- `fn place_objects`: the list stands for the `num_monsters` sampled
placements; a position blocked by a non-walkable object is skipped, otherwise the
rolled monster is appended. -/
def place_objects (_room : Rect) (choices : List MonsterChoice)
    (objects : List Object) : List Object :=
  choices.foldl (fun objects c =>
    if is_blocked_by_object c.x c.y objects then objects
    else objects ++ [if c.isOrc then make_orc c.x c.y else make_troll c.x c.y]) objects

/-- The random samples one iteration of the `make_map` loop draws: room size and
position, the tunnel-order coin flip, and the `place_objects` samples. -/
structure RoomChoice where
  w : Int
  h : Int
  x : Int
  y : Int
  coin : Bool
  monsters : List MonsterChoice
  deriving DecidableEq

/-- The mutable state of the `make_map` loop. -/
structure GenState where
  map : GameMap
  rooms : List Rect
  prev_x : Int
  prev_y : Int
  objects : List Object
  deriving DecidableEq

/-- `objects[PLAYER].set_pos(x, y)` on the object list. -/
def set_object_pos (objects : List Object) (id : Nat) (x y : Int) : List Object :=
  match objects[id]? with
  | none => objects
  | some o => objects.set id (o.set_pos x y)

/-- One iteration of the `make_map` loop: sample a room, reject it if it
intersects any accepted room, otherwise carve it, place monsters, and either
set the spawn point (first room) or carve the L-shaped corridor from the
previous room's center (coin flip chooses horizontal-first or vertical-first). -/
def make_map_step (st : GenState) (c : RoomChoice) : GenState :=
  let room_rect := Rect.new c.x c.y c.w c.h
  let blocked := st.rooms.any (fun other_room => room_rect.intersects_with other_room)
  if blocked then st
  else
    let map := make_room room_rect st.map
    let objects := place_objects room_rect c.monsters st.objects
    let center := room_rect.center
    if st.rooms.isEmpty then
      { map := map, rooms := st.rooms ++ [room_rect], prev_x := center.1, prev_y := center.2,
        objects := set_object_pos objects PLAYER center.1 center.2 }
    else
      let map :=
        if c.coin then
          make_v_tunnel st.prev_y center.2 center.1 (make_h_tunnel st.prev_x center.1 st.prev_y map)
        else
          make_h_tunnel st.prev_x center.1 center.2 (make_v_tunnel st.prev_y center.2 st.prev_x map)
      { map := map, rooms := st.rooms ++ [room_rect], prev_x := center.1, prev_y := center.2,
        objects := objects }

/-- `vec![vec![Tile::wall(); MAP_HEIGHT]; MAP_WIDTH]`. -/
def initial_map : GameMap :=
  List.replicate MAP_WIDTH.toNat (List.replicate MAP_HEIGHT.toNat Tile.wall)

/-- `fn make_map`. The choice list stands for the samples of the `MAX_ROOMS`
loop iterations (the source always runs exactly `MAX_ROOMS` of them; the
theorems hold for every number of iterations). Returns the full loop state:
the carved map, the accepted rooms, and the object list with the player spawn
applied. -/
def make_map (choices : List RoomChoice) (objects : List Object) : GenState :=
  choices.foldl make_map_step
    { map := initial_map, rooms := [], prev_x := 0, prev_y := 0, objects := objects }

/-- The exploration-bookkeeping store of `render_all`'s tile loop:
`if visible { *explored = true; }` at one tile. -/
def explore_visible (fov : Int → Int → Bool) (m : GameMap) (x y : Int) : GameMap :=
  if fov x y then
    match tile_lookup m x y with
    | none => m
    | some t => set_tile m x y { t with explored := true }
  else m

/-- The tile loop of `render_all` restricted to its only simulation-state
mutation: marking every currently visible tile explored. All drawing calls go
to the externalized console. -/
def render_explored_pass (fov : Int → Int → Bool) (m : GameMap) : GameMap :=
  (range_i 0 MAP_WIDTH).foldl (fun m x =>
    (range_i 0 MAP_HEIGHT).foldl (fun m y => explore_visible fov m x y) m) m

/-- The monster loop of `main`: for each id in order, first update `was_seen`
from the current field of view, then run `ai_take_turn` when the object is
alive, has an ai, and was seen. The returned `List Nat` records (instrumentation
only) the ids whose `ai_take_turn` ran. -/
def monster_loop (fov : Int → Int → Bool) :
    List Nat → Game → List Object → List Nat → Option (Game × List Object × List Nat)
  | [], game, objects, acted => some (game, objects, acted)
  | id :: ids, game, objects, acted =>
    match objects[id]? with
    | none => none
    | some ob0 =>
      let ob := if !ob0.was_seen && fov ob0.x ob0.y then { ob0 with was_seen := true } else ob0
      let objects' := objects.set id ob
      if ob.is_alive && ob.ai.isSome && ob.was_seen then
        match ai_take_turn id game objects' with
        | none => none
        | some (game', objects'') => monster_loop fov ids game' objects'' (acted ++ [id])
      else monster_loop fov ids game objects' acted

/-- The monster phase of one iteration of `main`'s while loop: an `Exit` action
breaks out before the phase, and the phase itself runs only when
`objects[PLAYER].is_alive && player_action != PlayerAction::DidntTakeTurn`. -/
def monsters_turn (fov : Int → Int → Bool) (player_action : PlayerAction) (game : Game)
    (objects : List Object) : Option (Game × List Object × List Nat) :=
  if player_action = PlayerAction.Exit then some (game, objects, [])
  else if ((objects[PLAYER]?).map Object.is_alive).getD false = true ∧
      player_action ≠ PlayerAction.DidntTakeTurn then
    monster_loop fov (List.range objects.length) game objects []
  else some (game, objects, [])

/-- A map of the fixed `MAP_WIDTH × MAP_HEIGHT` shape allocated by `make_map`. -/
def wf_map (m : GameMap) : Prop :=
  m.length = MAP_WIDTH.toNat ∧ ∀ col ∈ m, col.length = MAP_HEIGHT.toNat

instance (m : GameMap) : Decidable (wf_map m) := by
  unfold wf_map
  infer_instance

/-- The tile at `(x, y)` exists and is walkable. -/
def walkable_at (m : GameMap) (x y : Int) : Prop :=
  ∃ t, tile_lookup m x y = some t ∧ t.is_walkable = true

/-- One 4-neighbour grid step. -/
def adjacent_step (p q : Int × Int) : Prop :=
  (p.2 = q.2 ∧ (q.1 = p.1 + 1 ∨ q.1 = p.1 - 1)) ∨
  (p.1 = q.1 ∧ (q.2 = p.2 + 1 ∨ q.2 = p.2 - 1))

/-- A step between two walkable cells. -/
def walk_step (walk : Int → Int → Prop) (p q : Int × Int) : Prop :=
  walk p.1 p.2 ∧ walk q.1 q.2 ∧ adjacent_step p q

/-- Reachability along walkable cells. -/
def reachable (walk : Int → Int → Prop) (p q : Int × Int) : Prop :=
  Relation.ReflTransGen (walk_step walk) p q

/-- The carved interior cells of a room: `make_room` opens exactly
`(x1+1..x2) × (y1+1..y2)`, that is `x1 < x < x2` and `y1 < y < y2`. -/
def room_interior (r : Rect) (p : Int × Int) : Prop :=
  r.x1 < p.1 ∧ p.1 < r.x2 ∧ r.y1 < p.2 ∧ p.2 < r.y2

/-- The room rectangle lies inside the grid. -/
def room_in_bounds (r : Rect) : Prop :=
  0 ≤ r.x1 ∧ r.x2 < MAP_WIDTH ∧ 0 ≤ r.y1 ∧ r.y2 < MAP_HEIGHT

/-- The constraints the source's `gen_range` calls guarantee for every sampled
room: `w ∈ [MIN_ROOM_WIDTH, MAX_ROOM_WIDTH)` (so `2 ≤ w`), likewise for `h`,
and a position for which the room fits strictly inside the grid. -/
def choice_ok (c : RoomChoice) : Prop :=
  2 ≤ c.w ∧ 2 ≤ c.h ∧ 0 ≤ c.x ∧ c.x + c.w < MAP_WIDTH ∧ 0 ≤ c.y ∧ c.y + c.h < MAP_HEIGHT

instance (c : RoomChoice) : Decidable (choice_ok c) := by
  unfold choice_ok
  infer_instance

/-- The destination of a step is inside the grid and not blocked; this is the
success condition of `move_by`. -/
def can_step (map : GameMap) (objects : List Object) (x y : Int) : Prop :=
  (0 ≤ x ∧ x < MAP_WIDTH ∧ 0 ≤ y ∧ y < MAP_HEIGHT) ∧
  is_blocked map x y objects = some false

instance (map : GameMap) (objects : List Object) (x y : Int) :
    Decidable (can_step map objects x y) := by
  unfold can_step
  infer_instance

/-- The three rejection conditions of a move, as the specification words them:
the destination is outside the grid bounds, or its tile is non-walkable, or it
is occupied by a non-walkable entity. -/
def blocked_dest (map : GameMap) (objects : List Object) (x y : Int) : Prop :=
  ¬(0 ≤ x ∧ x < MAP_WIDTH ∧ 0 ≤ y ∧ y < MAP_HEIGHT) ∨
  (∃ t, tile_lookup map x y = some t ∧ t.is_walkable = false) ∨
  is_blocked_by_object x y objects = true

/-- Invariant of the `make_map` loop state used for the reachability claim: the
map keeps its fixed shape; the object store stays nonempty; every accepted room
lies in bounds with both dimensions at least 2 and a fully walkable interior;
the `prev` cursor is the last accepted room's center; and once a first room
exists, the player spawn sits at its center and every accepted interior cell is
reachable from that center over walkable tiles. -/
def gen_inv (st : GenState) : Prop :=
  wf_map st.map ∧
  0 < st.objects.length ∧
  (∀ r ∈ st.rooms, room_in_bounds r ∧ r.x1 + 2 ≤ r.x2 ∧ r.y1 + 2 ≤ r.y2) ∧
  (∀ r ∈ st.rooms, ∀ p : Int × Int, room_interior r p → walkable_at st.map p.1 p.2) ∧
  (st.rooms = [] ∨ ∃ rl, st.rooms.getLast? = some rl ∧
    st.prev_x = (rl.center).1 ∧ st.prev_y = (rl.center).2) ∧
  (∀ r0 : Rect, st.rooms.head? = some r0 →
    (∀ po : Object, st.objects[0]? = some po →
      po.x = (r0.center).1 ∧ po.y = (r0.center).2) ∧
    (∀ r ∈ st.rooms, ∀ p : Int × Int, room_interior r p →
      reachable (walkable_at st.map) r0.center p))

/-- The per-monster gate of the monster loop, evaluated against a fixed object
list: the object exists, is alive, has an ai capability, and either was already
seen or stands in the current field of view (the loop updates `was_seen` from
the field of view right before testing it). -/
def ai_gate (fov : Int → Int → Bool) (objects : List Object) (id : Nat) : Bool :=
  match objects[id]? with
  | none => false
  | some o => o.is_alive && o.ai.isSome && (o.was_seen || fov o.x o.y)

/-- Relation between a map and any update of it by exploration bookkeeping:
every tile is either untouched or has had its `explored` flag turned on. -/
def explored_mono (m m' : GameMap) : Prop :=
  ∀ a b, tile_lookup m' a b = tile_lookup m a b ∨
    ∃ t, tile_lookup m a b = some t ∧ tile_lookup m' a b = some { t with explored := true }

/-! ### Concrete instances used by the witness theorems -/

/-- A game state with an empty map (the combat code never reads the map). -/
def ex_empty_game : Game :=
  { map := [], messages := [] }

/-- The player's `Fighter` from `main`, with hp run down to 3. -/
def ex_player_fighter : Fighter :=
  { max_hp := 30, hp := 3, defense := 2, attack := 5, on_death := DeathCallback.Player }

/-- A player object about to take lethal damage. -/
def ex_player_dying : Object :=
  { Object.new 1 1 '@' "Player" Color.white with fighter := some ex_player_fighter }

/-- An orc monster (as placed by `place_objects`) standing at (2, 1). -/
def ex_orc : Object := make_orc 2 1

/-- A defender whose defense (5) exceeds the orc's attack (3). -/
def ex_troll_tough : Object :=
  { Object.new 3 1 'T' "troll" Color.darkerRed with
      fighter := some { max_hp := 16, hp := 16, defense := 5, attack := 4, on_death := DeathCallback.Monster } }

/-- A fighter-less corpse occupying a tile. -/
def ex_corpse : Object :=
  { Object.new 2 1 '%' "remains of orc" Color.darkRed with
      is_walkable := true, is_alive := false }

/-- A fully open `MAP_WIDTH × MAP_HEIGHT` map. -/
def ex_open_map : GameMap :=
  List.replicate MAP_WIDTH.toNat (List.replicate MAP_HEIGHT.toNat Tile.empty)

/-- A game over the fully open map. -/
def ex_game_open : Game :=
  { map := ex_open_map, messages := [] }

/-- A healthy player at (10, 12). -/
def ex_player_at_10_12 : Object :=
  { Object.new 10 12 '@' "Player" Color.white with
      fighter := some { max_hp := 30, hp := 30, defense := 2, attack := 5, on_death := DeathCallback.Player } }

/-- An orc at (10, 10), two tiles above the player. -/
def ex_orc_at_10_10 : Object := make_orc 10 10

/-- Generation sample: a 4 × 4 room at (2, 2), no monsters. -/
def ex_choice_1 : RoomChoice :=
  { w := 4, h := 4, x := 2, y := 2, coin := true, monsters := [] }

/-- Generation sample: a 4 × 4 room at (20, 10), no monsters. -/
def ex_choice_2 : RoomChoice :=
  { w := 4, h := 4, x := 20, y := 10, coin := true, monsters := [] }

/-- The generator state produced from the two sample rooms. -/
def ex_gen : GenState := make_map [ex_choice_1, ex_choice_2] [ex_player_at_10_12]

/-! ### Helper lemmas -/

theorem tile_lookup_of_wf (m : GameMap) (x y : Int) (hwf : wf_map m)
    (hx0 : 0 ≤ x) (hxW : x < MAP_WIDTH) (hy0 : 0 ≤ y) (hyH : y < MAP_HEIGHT) :
    ∃ t, tile_lookup m x y = some t := by
  obtain ⟨hlen, hcols⟩ := hwf
  simp only [MAP_WIDTH, MAP_HEIGHT] at hxW hyH hlen hcols
  have hxlt : x.toNat < m.length := by omega
  have hcol : m[x.toNat]? = some m[x.toNat] := List.getElem?_eq_getElem hxlt
  have hylen : m[x.toNat].length = (43:Int).toNat := hcols _ (List.getElem_mem hxlt)
  have hylt : y.toNat < m[x.toNat].length := by omega
  refine ⟨m[x.toNat][y.toNat], ?_⟩
  unfold tile_lookup
  rw [if_neg (by omega), hcol]
  exact List.getElem?_eq_getElem hylt

theorem is_blocked_of_wf (m : GameMap) (x y : Int) (objects : List Object) (hwf : wf_map m)
    (hx0 : 0 ≤ x) (hxW : x < MAP_WIDTH) (hy0 : 0 ≤ y) (hyH : y < MAP_HEIGHT) :
    ∃ t, tile_lookup m x y = some t ∧
      is_blocked m x y objects = some (!t.is_walkable || is_blocked_by_object x y objects) := by
  obtain ⟨t, ht⟩ := tile_lookup_of_wf m x y hwf hx0 hxW hy0 hyH
  refine ⟨t, ht, ?_⟩
  unfold is_blocked
  rw [ht]
  cases hw : t.is_walkable <;> simp [hw]

theorem move_by_eval (id : Nat) (dx dy : Int) (map : GameMap) (objects : List Object)
    (obj : Object) (hid : objects[id]? = some obj) :
    move_by id dx dy map objects =
      (if 0 ≤ obj.x + dx ∧ obj.x + dx < MAP_WIDTH ∧ 0 ≤ obj.y + dy ∧ obj.y + dy < MAP_HEIGHT then
        match is_blocked map (obj.x + dx) (obj.y + dy) objects with
        | none => none
        | some true => some (PlayerAction.DidntTakeTurn, objects)
        | some false =>
          some (PlayerAction.TookTurn, objects.set id (obj.set_pos (obj.x + dx) (obj.y + dy)))
      else some (PlayerAction.DidntTakeTurn, objects)) := by
  unfold move_by
  rw [hid]

theorem findIdx?_found {α : Type} (p : α → Bool) :
    ∀ (l : List α) (i : Nat), List.findIdx? p l = some i →
      ∃ a, l[i]? = some a ∧ p a = true := by
  intro l
  induction l with
  | nil => intro i h; simp [List.findIdx?] at h
  | cons x xs ih =>
    intro i h
    rw [List.findIdx?_cons, List.findIdx?_succ] at h
    by_cases hp : p x
    · rw [if_pos hp] at h
      injection h with h
      subst h
      exact ⟨x, by simp, hp⟩
    · rw [if_neg (by simp [hp])] at h
      obtain ⟨k, hk, hki⟩ := Option.map_eq_some'.mp h
      subst hki
      obtain ⟨a, ha, hpa⟩ := ih k hk
      exact ⟨a, by simpa using ha, hpa⟩

/-! ### Claim theorems -/

/-- C7: when the attack damage `attacker.attack − defender.defense` is not positive,
`Object::attack` only appends the "no effect" message to the log: the defender
(hp, liveness, fighter, flags, position — the whole object) is returned unchanged
and nothing else in the game state changes. -/
theorem C7_no_effect_attack (attacker defender : Object) (game : Game)
    (h : (attacker.fighter.map Fighter.attack).getD 0 -
      (defender.fighter.map Fighter.defense).getD 0 ≤ 0) :
    attacker.attack defender game =
      (defender,
        { game with messages := game.messages.add (attacker.name ++ " attacks " ++ defender.name ++ " but it has no effect!") Color.white }) := by
  simp only [Object.attack]
  rw [if_neg (by omega)]

/-- C7 witness: the spec's own example, attack 3 against defense 5. -/
theorem C7_no_effect_attack_witness :
    ((ex_orc.fighter.map Fighter.attack).getD 0 -
      (ex_troll_tough.fighter.map Fighter.defense).getD 0 ≤ 0) ∧
    ex_orc.attack ex_troll_tough ex_empty_game =
      (ex_troll_tough,
        { ex_empty_game with messages := ex_empty_game.messages.add (ex_orc.name ++ " attacks " ++ ex_troll_tough.name ++ " but it has no effect!") Color.white }) :=
  ⟨by decide, C7_no_effect_attack ex_orc ex_troll_tough ex_empty_game (by decide)⟩

/-- C1 counterexample: lethal damage resolved through the Player death-callback
variant does not remove the `fighter` capability and does not set `is_walkable`,
so the claim's list of effects does not hold for both variants. -/
theorem C1_player_variant_counterexample :
    ¬ ((ex_player_dying.take_damage 5 ex_empty_game).1.fighter = none ∧
       (ex_player_dying.take_damage 5 ex_empty_game).1.is_walkable = true) := by
  decide

/-- C1 (amended): on lethal damage (`0 < damage`, `hp ≤ damage`) the entity dies:
hp is clamped to 0, `is_alive` becomes false, and glyph/color change to the
remains representation under both variants; removal of `fighter` and `ai`,
`is_walkable := true`, and the "remains of X" rename happen under the Monster
variant only, while the Player variant keeps the (zeroed) fighter and leaves
`ai`, `is_walkable` and the name untouched. -/
theorem C1_death_transition (obj : Object) (f : Fighter) (damage : Int) (game : Game)
    (hf : obj.fighter = some f) (hpos : 0 < damage) (hlethal : f.hp ≤ damage) :
    (obj.take_damage damage game).1.is_alive = false ∧
    (obj.take_damage damage game).1.char = '%' ∧
    (obj.take_damage damage game).1.color = Color.darkRed ∧
    (f.on_death = DeathCallback.Monster →
      (obj.take_damage damage game).1 =
        { obj with
            char := '%', color := Color.darkRed, is_walkable := true, fighter := none,
            ai := none, name := "remains of " ++ obj.name, is_alive := false }) ∧
    (f.on_death = DeathCallback.Player →
      (obj.take_damage damage game).1 =
        { obj with
            char := '%', color := Color.darkRed, fighter := some { f with hp := 0 },
            is_alive := false }) := by
  have key : obj.take_damage damage game =
      f.on_death.callback { obj with fighter := some { f with hp := 0 }, is_alive := false } game := by
    unfold Object.take_damage
    rw [hf, if_neg (by omega)]
    dsimp only
    rw [if_pos (by omega)]
  rw [key]
  cases hd : f.on_death <;>
    simp [DeathCallback.callback, player_death, monster_death, hd]

/-- C1 witness: an orc killed by 10 damage undergoes the Monster transition. -/
theorem C1_death_transition_witness :
    (ex_orc.fighter = some { max_hp := 10, hp := 10, defense := 0, attack := 3, on_death := DeathCallback.Monster }) ∧
    ((0:Int) < 10) ∧ ((10:Int) ≤ 10) ∧
    ((ex_orc.take_damage 10 ex_empty_game).1.is_alive = false ∧
     (ex_orc.take_damage 10 ex_empty_game).1.char = '%' ∧
     (ex_orc.take_damage 10 ex_empty_game).1.color = Color.darkRed ∧
     ({ max_hp := 10, hp := 10, defense := 0, attack := 3, on_death := DeathCallback.Monster : Fighter }.on_death = DeathCallback.Monster →
       (ex_orc.take_damage 10 ex_empty_game).1 =
         { ex_orc with
             char := '%', color := Color.darkRed, is_walkable := true, fighter := none,
             ai := none, name := "remains of " ++ ex_orc.name, is_alive := false }) ∧
     ({ max_hp := 10, hp := 10, defense := 0, attack := 3, on_death := DeathCallback.Monster : Fighter }.on_death = DeathCallback.Player →
       (ex_orc.take_damage 10 ex_empty_game).1 =
         { ex_orc with
             char := '%', color := Color.darkRed,
             fighter := some { max_hp := 10, hp := 0, defense := 0, attack := 3, on_death := DeathCallback.Monster },
             is_alive := false })) :=
  ⟨by decide, by decide, by decide,
    C1_death_transition ex_orc _ 10 ex_empty_game (by decide) (by decide) (by decide)⟩

/-- C4: `move_by` returns `DidntTakeTurn` and leaves every object unchanged when
the destination is out of bounds, on a non-walkable tile, or occupied by a
non-walkable entity, and otherwise returns `TookTurn` with exactly the position
`(x+dx, y+dy)` written to the moving entity. -/
theorem C4_move_by_blocked_or_moves (id : Nat) (dx dy : Int) (map : GameMap)
    (objects : List Object) (obj : Object)
    (hwf : wf_map map) (hid : objects[id]? = some obj) :
    (blocked_dest map objects (obj.x + dx) (obj.y + dy) →
      move_by id dx dy map objects = some (PlayerAction.DidntTakeTurn, objects)) ∧
    (¬ blocked_dest map objects (obj.x + dx) (obj.y + dy) →
      move_by id dx dy map objects =
        some (PlayerAction.TookTurn, objects.set id (obj.set_pos (obj.x + dx) (obj.y + dy)))) := by
  rw [move_by_eval id dx dy map objects obj hid]
  by_cases hb : 0 ≤ obj.x + dx ∧ obj.x + dx < MAP_WIDTH ∧ 0 ≤ obj.y + dy ∧ obj.y + dy < MAP_HEIGHT
  · obtain ⟨t, ht, hbl⟩ := is_blocked_of_wf map (obj.x + dx) (obj.y + dy) objects hwf
      hb.1 hb.2.1 hb.2.2.1 hb.2.2.2
    rw [if_pos hb, hbl]
    constructor
    · intro hblocked
      have hbv : (!t.is_walkable ||
          is_blocked_by_object (obj.x + dx) (obj.y + dy) objects) = true := by
        rcases hblocked with h | ⟨t', ht', hw⟩ | h
        · exact absurd hb h
        · rw [ht] at ht'
          injection ht' with ht'
          subst ht'
          simp [hw]
        · simp [h]
      rw [hbv]
    · intro hfree
      have hw : t.is_walkable = true := by
        by_contra hw
        exact hfree (Or.inr (Or.inl ⟨t, ht, by simpa using hw⟩))
      have ho : is_blocked_by_object (obj.x + dx) (obj.y + dy) objects = false := by
        by_contra ho
        exact hfree (Or.inr (Or.inr (by simpa using ho)))
      have hbv : (!t.is_walkable ||
          is_blocked_by_object (obj.x + dx) (obj.y + dy) objects) = false := by
        rw [hw, ho]
        rfl
      rw [hbv]
  · rw [if_neg hb]
    constructor
    · intro _
      rfl
    · intro hfree
      exact absurd (Or.inl hb) hfree

/-- C4 witness: on the open map a one-step move of the player succeeds, while a
step to the tile occupied by the (non-walkable) orc at (2, 1) is refused. -/
theorem C4_move_by_witness :
    wf_map ex_open_map ∧
    [ex_player_dying, ex_orc][0]? = some ex_player_dying ∧
    (¬ blocked_dest ex_open_map [ex_player_dying, ex_orc] (ex_player_dying.x + 0) (ex_player_dying.y + 1) →
      move_by 0 0 1 ex_open_map [ex_player_dying, ex_orc] =
        some (PlayerAction.TookTurn,
          [ex_player_dying, ex_orc].set 0
            (ex_player_dying.set_pos (ex_player_dying.x + 0) (ex_player_dying.y + 1)))) :=
  ⟨by decide, by decide,
    (C4_move_by_blocked_or_moves 0 0 1 ex_open_map [ex_player_dying, ex_orc] ex_player_dying
      (by decide) (by decide)).2⟩

/-- C10: under the `0..MAP_WIDTH` / `0..MAP_HEIGHT` range checks that `move_by`
performs before calling `is_blocked`, the tile lookup is always in bounds on a
well-formed `MAP_WIDTH × MAP_HEIGHT` grid (its out-of-range branch returns a
value, never the `none` that models a panic), so `move_by` never panics. -/
theorem C10_move_by_lookup_in_bounds (map : GameMap) (objects : List Object) (id : Nat)
    (dx dy : Int) (obj : Object) (hwf : wf_map map) (hid : objects[id]? = some obj) :
    (∀ x y, 0 ≤ x → x < MAP_WIDTH → 0 ≤ y → y < MAP_HEIGHT →
      (tile_lookup map x y).isSome = true) ∧
    (move_by id dx dy map objects).isSome = true := by
  constructor
  · intro x y hx0 hxW hy0 hyH
    obtain ⟨t, ht⟩ := tile_lookup_of_wf map x y hwf hx0 hxW hy0 hyH
    rw [ht]
    rfl
  · rw [move_by_eval id dx dy map objects obj hid]
    by_cases hb : 0 ≤ obj.x + dx ∧ obj.x + dx < MAP_WIDTH ∧ 0 ≤ obj.y + dy ∧ obj.y + dy < MAP_HEIGHT
    · obtain ⟨t, _, hbl⟩ := is_blocked_of_wf map (obj.x + dx) (obj.y + dy) objects hwf
        hb.1 hb.2.1 hb.2.2.1 hb.2.2.2
      rw [if_pos hb, hbl]
      cases (!t.is_walkable || is_blocked_by_object (obj.x + dx) (obj.y + dy) objects) <;> rfl
    · rw [if_neg hb]
      rfl

/-- C10 witness. -/
theorem C10_move_by_lookup_in_bounds_witness :
    wf_map ex_open_map ∧
    [ex_player_dying, ex_orc][0]? = some ex_player_dying ∧
    (move_by 0 1 1 ex_open_map [ex_player_dying, ex_orc]).isSome = true :=
  ⟨by decide, by decide,
    (C10_move_by_lookup_in_bounds ex_open_map [ex_player_dying, ex_orc] 0 1 1 ex_player_dying
      (by decide) (by decide)).2⟩

/-- C9: a fighter-less entity is never a combat target. `take_damage` leaves it
(and the game) entirely unchanged for every damage value; in
`player_move_or_attack` the target search only ever selects an entity whose
`fighter` is present, and when no entity with a fighter stands on the
destination tile the resolution is exactly the `move_by` attempt. -/
theorem C9_no_fighter_never_target (obj : Object) (damage : Int) (game : Game)
    (dx dy : Int) (objects : List Object) (player : Object)
    (hobj : obj.fighter = none) (hp : objects[PLAYER]? = some player) :
    obj.take_damage damage game = (obj, game) ∧
    (∀ tid, List.findIdx?
        (fun o => o.x == player.x + dx && o.y == player.y + dy && o.fighter.isSome) objects =
        some tid → ∃ t, objects[tid]? = some t ∧ t.fighter.isSome = true) ∧
    ((∀ o ∈ objects, ¬(o.x = player.x + dx ∧ o.y = player.y + dy ∧ o.fighter.isSome = true)) →
      player_move_or_attack dx dy game objects =
        match move_by PLAYER dx dy game.map objects with
        | none => none
        | some (action, objects') => some (action, game, objects')) := by
  refine ⟨?_, ?_, ?_⟩
  · unfold Object.take_damage
    rw [hobj]
    by_cases hd : damage ≤ 0
    · rw [if_pos hd]
    · rw [if_neg hd]
  · intro tid hfind
    obtain ⟨a, ha, hpa⟩ := findIdx?_found _ objects tid hfind
    refine ⟨a, ha, ?_⟩
    simp only [Bool.and_eq_true] at hpa
    exact hpa.2
  · intro hnone
    unfold player_move_or_attack
    rw [hp]
    dsimp only
    have hfind : List.findIdx?
        (fun o => o.x == player.x + dx && o.y == player.y + dy && o.fighter.isSome) objects =
        none := by
      rw [List.findIdx?_eq_none_iff]
      intro o ho
      have := hnone o ho
      by_contra hc
      simp only [Bool.not_eq_false, Bool.and_eq_true, beq_iff_eq] at hc
      exact this ⟨hc.1.1, hc.1.2, hc.2⟩
    rw [hfind]

/-- C9 witness: a corpse at (2, 1) next to the player; the claim's hypotheses at
this input. -/
theorem C9_no_fighter_never_target_witness :
    ex_corpse.fighter = none ∧
    [ex_player_dying, ex_corpse][PLAYER]? = some ex_player_dying ∧
    ex_corpse.take_damage 7 ex_game_open = (ex_corpse, ex_game_open) :=
  ⟨by decide, by decide,
    (C9_no_fighter_never_target ex_corpse 7 ex_game_open 1 0 [ex_player_dying, ex_corpse]
      ex_player_dying (by decide) (by decide)).1⟩

theorem move_by_free (id : Nat) (dx dy : Int) (map : GameMap) (objects : List Object)
    (obj : Object) (hid : objects[id]? = some obj)
    (h : can_step map objects (obj.x + dx) (obj.y + dy)) :
    move_by id dx dy map objects =
      some (PlayerAction.TookTurn, objects.set id (obj.set_pos (obj.x + dx) (obj.y + dy))) := by
  rw [move_by_eval id dx dy map objects obj hid, if_pos h.1, h.2]

theorem move_by_blocked (id : Nat) (dx dy : Int) (map : GameMap) (objects : List Object)
    (obj : Object) (hwf : wf_map map) (hid : objects[id]? = some obj)
    (h : ¬ can_step map objects (obj.x + dx) (obj.y + dy)) :
    move_by id dx dy map objects = some (PlayerAction.DidntTakeTurn, objects) := by
  rw [move_by_eval id dx dy map objects obj hid]
  by_cases hb : 0 ≤ obj.x + dx ∧ obj.x + dx < MAP_WIDTH ∧ 0 ≤ obj.y + dy ∧ obj.y + dy < MAP_HEIGHT
  · obtain ⟨t, ht, hbl⟩ := is_blocked_of_wf map (obj.x + dx) (obj.y + dy) objects hwf
      hb.1 hb.2.1 hb.2.2.1 hb.2.2.2
    rw [if_pos hb, hbl]
    have hval : (!t.is_walkable ||
        is_blocked_by_object (obj.x + dx) (obj.y + dy) objects) = true := by
      by_contra hv
      exact h ⟨hb, by rw [hbl, Bool.not_eq_true _] at *; rw [hv]⟩
    rw [hval]
  · rw [if_neg hb]

/-- Evaluation of `move_towards`: the first free step among diagonal,
horizontal-only, vertical-only is taken; if all three are blocked nothing
happens. -/
theorem move_towards_eval (id : Nat) (tx ty : Int) (map : GameMap) (objects : List Object)
    (obj : Object) (hwf : wf_map map) (hid : objects[id]? = some obj) :
    move_towards id tx ty map objects =
      some (if can_step map objects (obj.x + normalize (tx - obj.x)) (obj.y + normalize (ty - obj.y)) then
          objects.set id (obj.set_pos (obj.x + normalize (tx - obj.x)) (obj.y + normalize (ty - obj.y)))
        else if can_step map objects (obj.x + normalize (tx - obj.x)) obj.y then
          objects.set id (obj.set_pos (obj.x + normalize (tx - obj.x)) obj.y)
        else if can_step map objects obj.x (obj.y + normalize (ty - obj.y)) then
          objects.set id (obj.set_pos obj.x (obj.y + normalize (ty - obj.y)))
        else objects) := by
  unfold move_towards
  rw [hid]
  dsimp only
  by_cases h1 : can_step map objects (obj.x + normalize (tx - obj.x))
      (obj.y + normalize (ty - obj.y))
  · rw [move_by_free id _ _ map objects obj hid h1]
    dsimp only
    rw [if_neg (by simp), if_pos h1]
  · rw [move_by_blocked id _ _ map objects obj hwf hid h1]
    dsimp only
    rw [if_pos rfl, if_neg h1]
    by_cases h2 : can_step map objects (obj.x + normalize (tx - obj.x)) obj.y
    · rw [move_by_free id _ 0 map objects obj hid (by rw [add_zero]; exact h2)]
      dsimp only
      rw [if_neg (by simp), if_pos h2, add_zero]
    · rw [move_by_blocked id _ 0 map objects obj hwf hid (by rw [add_zero]; exact h2)]
      dsimp only
      rw [if_pos rfl, if_neg h2]
      by_cases h3 : can_step map objects obj.x (obj.y + normalize (ty - obj.y))
      · rw [move_by_free id 0 _ map objects obj hid (by rw [add_zero]; exact h3)]
        rw [if_pos h3, add_zero]
      · rw [move_by_blocked id 0 _ map objects obj hwf hid (by rw [add_zero]; exact h3)]
        rw [if_neg h3]

/-- C2: a monster's AI turn. At Chebyshev distance greater than 1 from the
player it attempts exactly one greedy step — the sign-of-delta diagonal step,
then the horizontal-only step, then the vertical-only step — taking the first
free one and staying put when all three are blocked; at distance at most 1 it
instead performs one attack on the player, provided the player's hp is
positive. -/
theorem C2_ai_pursuit_or_attack (id : Nat) (game : Game) (objects : List Object)
    (mob player : Object) (hwf : wf_map game.map) (hid0 : id ≠ PLAYER)
    (hmob : objects[id]? = some mob) (hplayer : objects[PLAYER]? = some player) :
    (mob.grid_distance_to player > 1 →
      ai_take_turn id game objects =
        some (game,
          if can_step game.map objects (mob.x + normalize (player.x - mob.x)) (mob.y + normalize (player.y - mob.y)) then
            objects.set id (mob.set_pos (mob.x + normalize (player.x - mob.x)) (mob.y + normalize (player.y - mob.y)))
          else if can_step game.map objects (mob.x + normalize (player.x - mob.x)) mob.y then
            objects.set id (mob.set_pos (mob.x + normalize (player.x - mob.x)) mob.y)
          else if can_step game.map objects mob.x (mob.y + normalize (player.y - mob.y)) then
            objects.set id (mob.set_pos mob.x (mob.y + normalize (player.y - mob.y)))
          else objects)) ∧
    (mob.grid_distance_to player ≤ 1 → ∀ f, player.fighter = some f → 0 < f.hp →
      ai_take_turn id game objects =
        some ((mob.attack player game).2, objects.set PLAYER (mob.attack player game).1)) := by
  constructor
  · intro hdist
    unfold ai_take_turn
    rw [if_neg hid0, hmob, hplayer]
    dsimp only
    rw [if_pos hdist, move_towards_eval id player.x player.y game.map objects mob hwf hmob]
  · intro hdist f hf hhp
    unfold ai_take_turn
    rw [if_neg hid0, hmob, hplayer]
    dsimp only
    rw [if_neg (by omega), hf]
    dsimp only
    rw [if_pos hhp]

/-- C2 witness: the spec's pursuit example — orc at (10, 10), player at (10, 12)
on an open map; the diagonal step degenerates to the vertical step (10, 11). -/
theorem C2_ai_pursuit_or_attack_witness :
    wf_map ex_game_open.map ∧ (1 : Nat) ≠ PLAYER ∧
    [ex_player_at_10_12, ex_orc_at_10_10][1]? = some ex_orc_at_10_10 ∧
    [ex_player_at_10_12, ex_orc_at_10_10][PLAYER]? = some ex_player_at_10_12 ∧
    (ex_orc_at_10_10.grid_distance_to ex_player_at_10_12 > 1 →
      ai_take_turn 1 ex_game_open [ex_player_at_10_12, ex_orc_at_10_10] =
        some (ex_game_open,
          if can_step ex_game_open.map [ex_player_at_10_12, ex_orc_at_10_10] (ex_orc_at_10_10.x + normalize (ex_player_at_10_12.x - ex_orc_at_10_10.x)) (ex_orc_at_10_10.y + normalize (ex_player_at_10_12.y - ex_orc_at_10_10.y)) then
            [ex_player_at_10_12, ex_orc_at_10_10].set 1 (ex_orc_at_10_10.set_pos (ex_orc_at_10_10.x + normalize (ex_player_at_10_12.x - ex_orc_at_10_10.x)) (ex_orc_at_10_10.y + normalize (ex_player_at_10_12.y - ex_orc_at_10_10.y)))
          else if can_step ex_game_open.map [ex_player_at_10_12, ex_orc_at_10_10] (ex_orc_at_10_10.x + normalize (ex_player_at_10_12.x - ex_orc_at_10_10.x)) ex_orc_at_10_10.y then
            [ex_player_at_10_12, ex_orc_at_10_10].set 1 (ex_orc_at_10_10.set_pos (ex_orc_at_10_10.x + normalize (ex_player_at_10_12.x - ex_orc_at_10_10.x)) ex_orc_at_10_10.y)
          else if can_step ex_game_open.map [ex_player_at_10_12, ex_orc_at_10_10] ex_orc_at_10_10.x (ex_orc_at_10_10.y + normalize (ex_player_at_10_12.y - ex_orc_at_10_10.y)) then
            [ex_player_at_10_12, ex_orc_at_10_10].set 1 (ex_orc_at_10_10.set_pos ex_orc_at_10_10.x (ex_orc_at_10_10.y + normalize (ex_player_at_10_12.y - ex_orc_at_10_10.y)))
          else [ex_player_at_10_12, ex_orc_at_10_10])) :=
  ⟨by decide, by decide, by decide, by decide,
    (C2_ai_pursuit_or_attack 1 ex_game_open [ex_player_at_10_12, ex_orc_at_10_10]
      ex_orc_at_10_10 ex_player_at_10_12 (by decide) (by decide) (by decide) (by decide)).1⟩

theorem tile_lookup_neg (m : GameMap) (x y : Int) (h : x < 0 ∨ y < 0) :
    tile_lookup m x y = none := by
  unfold tile_lookup
  rw [if_pos h]

theorem tile_lookup_nonneg (m : GameMap) (x y : Int) (hx : 0 ≤ x) (hy : 0 ≤ y) :
    tile_lookup m x y = (m[x.toNat]?.bind fun col => col[y.toNat]?) := by
  unfold tile_lookup
  rw [if_neg (by omega)]
  cases m[x.toNat]? <;> rfl

theorem tile_lookup_set_tile (m : GameMap) (x y : Int) (t : Tile) (a b : Int) :
    tile_lookup (set_tile m x y t) a b =
      if a = x ∧ b = y ∧ (tile_lookup m x y).isSome = true then some t
      else tile_lookup m a b := by
  unfold set_tile
  by_cases hxy : x < 0 ∨ y < 0
  · rw [if_pos hxy, if_neg (by simp [tile_lookup_neg m x y hxy])]
  · rw [if_neg hxy]
    push_neg at hxy
    cases hcol : m[x.toNat]? with
    | none =>
      have hnone : tile_lookup m x y = none := by
        rw [tile_lookup_nonneg m x y hxy.1 hxy.2, hcol]
        rfl
      rw [if_neg (by simp [hnone])]
    | some col =>
      dsimp only
      have hxlt : x.toNat < m.length := by
        by_contra hc
        rw [List.getElem?_eq_none (by omega)] at hcol
        cases hcol
      have hlook : tile_lookup m x y = col[y.toNat]? := by
        rw [tile_lookup_nonneg m x y hxy.1 hxy.2, hcol]
        rfl
      by_cases hab : a < 0 ∨ b < 0
      · rw [tile_lookup_neg _ a b hab, tile_lookup_neg m a b hab,
          if_neg (by rintro ⟨rfl, rfl, _⟩; omega)]
      · push_neg at hab
        by_cases haxby : a = x ∧ b = y
        · obtain ⟨rfl, rfl⟩ := haxby
          rw [tile_lookup_nonneg _ a b hab.1 hab.2,
            List.getElem?_set_self hxlt, Option.some_bind]
          by_cases hylt : b.toNat < col.length
          · rw [List.getElem?_set_self hylt,
              if_pos ⟨rfl, rfl, by rw [hlook, List.getElem?_eq_getElem hylt]; rfl⟩]
          · rw [List.getElem?_eq_none (by rw [List.length_set]; omega),
              if_neg (by rw [hlook, List.getElem?_eq_none (by omega)]; simp), hlook,
              List.getElem?_eq_none (by omega)]
        · rw [if_neg (fun hc => haxby ⟨hc.1, hc.2.1⟩), tile_lookup_nonneg _ a b hab.1 hab.2,
            tile_lookup_nonneg m a b hab.1 hab.2]
          by_cases hax : a = x
          · subst hax
            have hbny : b ≠ y := fun hc => haxby ⟨rfl, hc⟩
            rw [List.getElem?_set_self hxlt, Option.some_bind, hcol, Option.some_bind,
              List.getElem?_set_ne (by omega)]
          · rw [List.getElem?_set_ne (by omega)]

theorem wf_map_set_tile (m : GameMap) (x y : Int) (t : Tile) (hwf : wf_map m) :
    wf_map (set_tile m x y t) := by
  obtain ⟨hlen, hcols⟩ := hwf
  unfold set_tile
  by_cases hxy : x < 0 ∨ y < 0
  · rw [if_pos hxy]
    exact ⟨hlen, hcols⟩
  · rw [if_neg hxy]
    cases hcol : m[x.toNat]? with
    | none => exact ⟨hlen, hcols⟩
    | some col =>
      refine ⟨by rw [List.length_set]; exact hlen, ?_⟩
      intro c hc
      rcases List.mem_or_eq_of_mem_set hc with hc' | rfl
      · exact hcols c hc'
      · rw [List.length_set]
        obtain ⟨hlt, rfl⟩ := List.getElem?_eq_some.mp hcol
        exact hcols _ (List.getElem_mem hlt)

theorem mem_range_i (a b x : Int) : x ∈ range_i a b ↔ a ≤ x ∧ x < b := by
  unfold range_i
  simp only [List.mem_map, List.mem_range]
  constructor
  · rintro ⟨i, hi, rfl⟩
    omega
  · intro h
    exact ⟨(x - a).toNat, by omega, by omega⟩

theorem tile_lookup_explore_visible (fov : Int → Int → Bool) (m : GameMap) (x y a b : Int) :
    tile_lookup (explore_visible fov m x y) a b =
      if a = x ∧ b = y ∧ fov x y = true ∧ (tile_lookup m x y).isSome = true then
        (tile_lookup m x y).map (fun t => { t with explored := true })
      else tile_lookup m a b := by
  unfold explore_visible
  by_cases hf : fov x y = true
  · rw [if_pos hf]
    cases hl : tile_lookup m x y with
    | none => rw [if_neg (by simp [hl])]
    | some t =>
      rw [tile_lookup_set_tile, hl]
      by_cases hab : a = x ∧ b = y
      · rw [if_pos ⟨hab.1, hab.2, rfl⟩, if_pos ⟨hab.1, hab.2, hf, rfl⟩]
        rfl
      · rw [if_neg (by rintro ⟨h1, h2, _⟩; exact hab ⟨h1, h2⟩),
          if_neg (by rintro ⟨h1, h2, _, _⟩; exact hab ⟨h1, h2⟩)]
  · rw [if_neg hf, if_neg (by rintro ⟨_, _, h, _⟩; exact hf h)]

theorem explored_mono_refl (m : GameMap) : explored_mono m m :=
  fun _ _ => Or.inl rfl

theorem explored_mono_trans {m1 m2 m3 : GameMap} (h12 : explored_mono m1 m2)
    (h23 : explored_mono m2 m3) : explored_mono m1 m3 := by
  intro a b
  rcases h12 a b with he | ⟨t, ht, hta⟩
  · rcases h23 a b with hf | ⟨u, htb, htc⟩
    · exact Or.inl (hf.trans he)
    · exact Or.inr ⟨u, by rw [he] at htb; exact ⟨htb, htc⟩⟩
  · rcases h23 a b with hf | ⟨u, htb, htc⟩
    · exact Or.inr ⟨t, ht, hf.trans hta⟩
    · refine Or.inr ⟨t, ht, ?_⟩
      rw [hta] at htb
      injection htb with htb
      rw [htc, htb.symm]

theorem explored_mono_explore_visible (fov : Int → Int → Bool) (m : GameMap) (x y : Int) :
    explored_mono m (explore_visible fov m x y) := by
  intro a b
  rw [tile_lookup_explore_visible]
  by_cases hc : a = x ∧ b = y ∧ fov x y = true ∧ (tile_lookup m x y).isSome = true
  · rw [if_pos hc]
    obtain ⟨rfl, rfl, _, hs⟩ := hc
    obtain ⟨t, ht⟩ := Option.isSome_iff_exists.mp hs
    exact Or.inr ⟨t, ht, by rw [ht]; rfl⟩
  · rw [if_neg hc]
    exact Or.inl rfl

theorem explored_mono_foldl {α : Type} (f : GameMap → α → GameMap)
    (hf : ∀ m a, explored_mono m (f m a)) (l : List α) (m : GameMap) :
    explored_mono m (l.foldl f m) := by
  induction l generalizing m with
  | nil => exact explored_mono_refl m
  | cons a l ih => exact explored_mono_trans (hf m a) (ih (f m a))

theorem explored_mono_pass (fov : Int → Int → Bool) (m : GameMap) :
    explored_mono m (render_explored_pass fov m) := by
  unfold render_explored_pass
  exact explored_mono_foldl _
    (fun m x => explored_mono_foldl _ (fun m y => explored_mono_explore_visible fov m x y) _ m) _ m

theorem explored_mono_isSome {m m' : GameMap} (h : explored_mono m m') (a b : Int)
    (hs : (tile_lookup m a b).isSome = true) : (tile_lookup m' a b).isSome = true := by
  rcases h a b with he | ⟨t, _, ht'⟩
  · rw [he]; exact hs
  · rw [ht']; rfl

theorem explored_mono_keeps {m m' : GameMap} (h : explored_mono m m') (a b : Int) (t : Tile)
    (ht : tile_lookup m a b = some t) (hexp : t.explored = true) :
    ∃ t', tile_lookup m' a b = some t' ∧ t'.explored = true := by
  rcases h a b with he | ⟨t0, ht0, ht0'⟩
  · exact ⟨t, by rw [he, ht], hexp⟩
  · exact ⟨{ t0 with explored := true }, ht0', rfl⟩

theorem explore_inner_sets (fov : Int → Int → Bool) (x : Int) (ys : List Int) (m : GameMap)
    (y : Int) (hy : y ∈ ys) (hfov : fov x y = true)
    (hsome : (tile_lookup m x y).isSome = true) :
    ∃ t', tile_lookup (ys.foldl (fun m b => explore_visible fov m x b) m) x y = some t' ∧
      t'.explored = true := by
  induction ys generalizing m with
  | nil => cases hy
  | cons y0 ys ih =>
    rw [List.foldl_cons]
    rcases List.mem_cons.mp hy with rfl | hy'
    · obtain ⟨t, ht⟩ := Option.isSome_iff_exists.mp hsome
      have hstep : tile_lookup (explore_visible fov m x y) x y = some { t with explored := true } := by
        rw [tile_lookup_explore_visible, if_pos ⟨rfl, rfl, hfov, hsome⟩, ht]
        rfl
      exact explored_mono_keeps
        (explored_mono_foldl _ (fun m b => explored_mono_explore_visible fov m x b) ys _)
        x y _ hstep rfl
    · exact ih _ hy' (explored_mono_isSome (explored_mono_explore_visible fov m x y0) x y hsome)

theorem explore_pass_sets (fov : Int → Int → Bool) (m : GameMap) (x y : Int)
    (hx0 : 0 ≤ x) (hxW : x < MAP_WIDTH) (hy0 : 0 ≤ y) (hyH : y < MAP_HEIGHT)
    (hfov : fov x y = true) (hsome : (tile_lookup m x y).isSome = true) :
    ∃ t', tile_lookup (render_explored_pass fov m) x y = some t' ∧ t'.explored = true := by
  unfold render_explored_pass
  have hxmem : x ∈ range_i 0 MAP_WIDTH := (mem_range_i _ _ _).mpr ⟨hx0, hxW⟩
  have hymem : y ∈ range_i 0 MAP_HEIGHT := (mem_range_i _ _ _).mpr ⟨hy0, hyH⟩
  clear hx0 hxW hy0 hyH
  generalize range_i 0 MAP_WIDTH = xs at hxmem
  generalize range_i 0 MAP_HEIGHT = ys at hymem
  induction xs generalizing m with
  | nil => cases hxmem
  | cons x0 xs ih =>
    rw [List.foldl_cons]
    rcases List.mem_cons.mp hxmem with rfl | hx'
    · obtain ⟨t', ht', hexp⟩ := explore_inner_sets fov x ys m y hymem hfov hsome
      exact explored_mono_keeps
        (explored_mono_foldl _
          (fun m a => explored_mono_foldl _ (fun m b => explored_mono_explore_visible fov m a b) ys m)
          xs _) x y t' ht' hexp
    · exact ih _
        (explored_mono_isSome
          (explored_mono_foldl _ (fun m b => explored_mono_explore_visible fov m x0 b) ys m)
          x y hsome) hx'

/-- C8: the explored flag is monotone. A tile in the current visible set has its
explored flag set to true by the render pass, and across any sequence of render
passes (with arbitrary visible sets) a true explored flag is never reset. -/
theorem C8_explored_monotone (fovs : List (Int → Int → Bool)) (fov : Int → Int → Bool)
    (m : GameMap) (x y : Int) (t : Tile) (ht : tile_lookup m x y = some t) :
    (0 ≤ x → x < MAP_WIDTH → 0 ≤ y → y < MAP_HEIGHT → fov x y = true →
      ∃ t', tile_lookup (render_explored_pass fov m) x y = some t' ∧ t'.explored = true) ∧
    (t.explored = true →
      ∃ t', tile_lookup (fovs.foldl (fun m f => render_explored_pass f m) m) x y = some t' ∧
        t'.explored = true) := by
  constructor
  · intro hx0 hxW hy0 hyH hfov
    exact explore_pass_sets fov m x y hx0 hxW hy0 hyH hfov (by rw [ht]; rfl)
  · intro hexp
    exact explored_mono_keeps
      (explored_mono_foldl _ (fun m f => explored_mono_pass f m) fovs m) x y t ht hexp

/-- C8 witness: tile (0, 0) of the open map under an all-seeing field of view. -/
theorem C8_explored_monotone_witness :
    tile_lookup ex_open_map 0 0 = some Tile.empty ∧
    ((0:Int) ≤ 0 → (0:Int) < MAP_WIDTH → (0:Int) ≤ 0 → (0:Int) < MAP_HEIGHT →
      (fun _ _ => true : Int → Int → Bool) 0 0 = true →
      ∃ t', tile_lookup (render_explored_pass (fun _ _ => true) ex_open_map) 0 0 = some t' ∧
        t'.explored = true) :=
  ⟨by decide,
    (C8_explored_monotone [] (fun _ _ => true) ex_open_map 0 0 Tile.empty (by decide)).1⟩

theorem intersects_with_iff (r1 r2 : Rect) :
    r1.intersects_with r2 = true ↔
      r1.x1 ≤ r2.x2 ∧ r2.x1 ≤ r1.x2 ∧ r1.y1 ≤ r2.y2 ∧ r2.y1 ≤ r1.y2 := by
  unfold Rect.intersects_with
  simp [and_assoc, ge_iff_le]

theorem intersects_with_symm (r1 r2 : Rect) :
    r1.intersects_with r2 = r2.intersects_with r1 := by
  rw [Bool.eq_iff_iff, intersects_with_iff, intersects_with_iff]
  tauto

theorem make_map_step_rooms_cases (st : GenState) (c : RoomChoice) :
    (make_map_step st c).rooms = st.rooms ∨
    ((make_map_step st c).rooms = st.rooms ++ [Rect.new c.x c.y c.w c.h] ∧
      ∀ r ∈ st.rooms, (Rect.new c.x c.y c.w c.h).intersects_with r = false) := by
  unfold make_map_step
  dsimp only
  by_cases hb : st.rooms.any
      (fun other_room => (Rect.new c.x c.y c.w c.h).intersects_with other_room) = true
  · rw [if_pos hb]
    exact Or.inl rfl
  · rw [if_neg hb]
    refine Or.inr ⟨?_, ?_⟩
    · by_cases he : st.rooms.isEmpty <;> simp [he]
    · intro r hr
      rw [Bool.not_eq_true, List.any_eq_false] at hb
      simpa using hb r hr

theorem make_map_rooms_pairwise (choices : List RoomChoice) (objects : List Object) :
    List.Pairwise (fun r1 r2 => r1.intersects_with r2 = false)
      (make_map choices objects).rooms := by
  unfold make_map
  have h : ∀ (st : GenState),
      List.Pairwise (fun r1 r2 => r1.intersects_with r2 = false) st.rooms →
      List.Pairwise (fun r1 r2 => r1.intersects_with r2 = false)
        (choices.foldl make_map_step st).rooms := by
    induction choices with
    | nil => intro st h; exact h
    | cons c cs ih =>
      intro st h
      rw [List.foldl_cons]
      refine ih _ ?_
      rcases make_map_step_rooms_cases st c with he | ⟨he, hni⟩
      · rw [he]
        exact h
      · rw [he, List.pairwise_append]
        refine ⟨h, List.pairwise_singleton _ _, ?_⟩
        intro a ha b hb
        rw [List.mem_singleton] at hb
        subst hb
        rw [intersects_with_symm]
        exact hni a ha
  exact h _ (by simp)

/-- C5: any two distinct accepted rooms fail the inclusive intersection test,
and consequently their carved interiors share no cell and are not even
edge-adjacent: every pair of interior cells is at Chebyshev distance at least 2,
leaving at least a 1-tile wall border. -/
theorem C5_rooms_non_overlapping (choices : List RoomChoice) (objects : List Object)
    (i j : Nat) (r1 r2 : Rect) (hij : i ≠ j)
    (h1 : (make_map choices objects).rooms[i]? = some r1)
    (h2 : (make_map choices objects).rooms[j]? = some r2) :
    r1.intersects_with r2 = false ∧
    ∀ p q : Int × Int, room_interior r1 p → room_interior r2 q →
      2 ≤ max (p.1 - q.1).natAbs (p.2 - q.2).natAbs := by
  have hpw := make_map_rooms_pairwise choices objects
  have hsep : r1.intersects_with r2 = false := by
    obtain ⟨hi, hri⟩ := List.getElem?_eq_some.mp h1
    obtain ⟨hj, hrj⟩ := List.getElem?_eq_some.mp h2
    subst hri hrj
    rcases Nat.lt_or_ge i j with hlt | hge
    · exact List.pairwise_iff_getElem.mp hpw i j hi hj hlt
    · rw [intersects_with_symm]
      exact List.pairwise_iff_getElem.mp hpw j i hj hi (by omega)
  refine ⟨hsep, ?_⟩
  intro p q hp hq
  have hn : ¬(r1.x1 ≤ r2.x2 ∧ r2.x1 ≤ r1.x2 ∧ r1.y1 ≤ r2.y2 ∧ r2.y1 ≤ r1.y2) := by
    intro hc
    rw [(intersects_with_iff r1 r2).mpr hc] at hsep
    cases hsep
  unfold room_interior at hp hq
  omega

/-- C5 witness: the two sample rooms, both accepted. -/
theorem C5_rooms_non_overlapping_witness :
    (0 : Nat) ≠ 1 ∧
    ex_gen.rooms[0]? = some (Rect.new 2 2 4 4) ∧
    ex_gen.rooms[1]? = some (Rect.new 20 10 4 4) ∧
    ((Rect.new 2 2 4 4).intersects_with (Rect.new 20 10 4 4) = false ∧
      ∀ p q : Int × Int, room_interior (Rect.new 2 2 4 4) p →
        room_interior (Rect.new 20 10 4 4) q →
        2 ≤ max (p.1 - q.1).natAbs (p.2 - q.2).natAbs) :=
  ⟨by decide, by decide, by decide,
    C5_rooms_non_overlapping [ex_choice_1, ex_choice_2] [ex_player_at_10_12] 0 1
      (Rect.new 2 2 4 4) (Rect.new 20 10 4 4) (by decide) (by decide) (by decide)⟩

theorem take_damage_frame (self : Object) (damage : Int) (game : Game) :
    (self.take_damage damage game).1.was_seen = self.was_seen ∧
    ((self.take_damage damage game).1.ai = self.ai ∨ (self.take_damage damage game).1.ai = none) ∧
    (self.take_damage damage game).2.map = game.map := by
  unfold Object.take_damage
  by_cases hd : damage ≤ 0
  · rw [if_pos hd]
    exact ⟨rfl, Or.inl rfl, rfl⟩
  · rw [if_neg hd]
    cases hf : self.fighter with
    | none => exact ⟨rfl, Or.inl rfl, rfl⟩
    | some f =>
      dsimp only
      by_cases hl : damage ≥ f.hp
      · rw [if_pos hl]
        cases hd2 : f.on_death <;>
          simp [DeathCallback.callback, player_death, monster_death]
      · rw [if_neg hl]
        exact ⟨rfl, Or.inl rfl, rfl⟩

theorem attack_frame (self other : Object) (game : Game) :
    (self.attack other game).1.was_seen = other.was_seen ∧
    ((self.attack other game).1.ai = other.ai ∨ (self.attack other game).1.ai = none) ∧
    (self.attack other game).2.map = game.map := by
  unfold Object.attack
  dsimp only
  by_cases hd : (self.fighter.map Fighter.attack).getD 0 -
      (other.fighter.map Fighter.defense).getD 0 > 0
  · rw [if_pos hd]
    exact take_damage_frame other _ _
  · rw [if_neg hd]
    exact ⟨rfl, Or.inl rfl, rfl⟩

theorem set_frame (objects : List Object) (id : Nat) (ob ob' : Object)
    (hmob : objects[id]? = some ob)
    (hseen : ob.was_seen = true → ob'.was_seen = true)
    (hai : ob.ai = none → ob'.ai = none) :
    (objects.set id ob').length = objects.length ∧
    (∀ k : Nat, k ≠ id → (objects.set id ob')[k]? = objects[k]?) ∧
    (∀ (k : Nat) (o o' : Object), objects[k]? = some o → (objects.set id ob')[k]? = some o' →
      (o.was_seen = true → o'.was_seen = true) ∧ (o.ai = none → o'.ai = none)) := by
  obtain ⟨hlt, hob⟩ := List.getElem?_eq_some.mp hmob
  refine ⟨List.length_set _ _ _, ?_, ?_⟩
  · intro k hk
    exact List.getElem?_set_ne (fun h => hk h.symm)
  · intro k o o' ho ho'
    by_cases hk : k = id
    · subst hk
      rw [List.getElem?_set_self hlt] at ho'
      rw [ho] at hmob
      injection hmob with he
      injection ho' with he'
      subst he
      subst he'
      exact ⟨hseen, hai⟩
    · rw [List.getElem?_set_ne (fun h => hk h.symm), ho] at ho'
      injection ho' with he
      subst he
      exact ⟨fun h => h, fun h => h⟩

theorem ai_take_turn_spec (id : Nat) (game : Game) (objects : List Object) (mob : Object)
    (hwf : wf_map game.map) (hid0 : id ≠ 0) (hmob : objects[id]? = some mob)
    (hlen : 0 < objects.length) :
    ∃ game' objects', ai_take_turn id game objects = some (game', objects') ∧
      game'.map = game.map ∧
      objects'.length = objects.length ∧
      (∀ k : Nat, k ≠ id → k ≠ 0 → objects'[k]? = objects[k]?) ∧
      (∀ (k : Nat) (o o' : Object), objects[k]? = some o → objects'[k]? = some o' →
        (o.was_seen = true → o'.was_seen = true) ∧ (o.ai = none → o'.ai = none)) := by
  obtain ⟨player, hplayer⟩ : ∃ p, objects[PLAYER]? = some p :=
    ⟨_, List.getElem?_eq_getElem (show PLAYER < objects.length from hlen)⟩
  have hPL : ¬(id = PLAYER) := by
    simpa [PLAYER] using hid0
  by_cases hdist : mob.grid_distance_to player > 1
  · have hmt := move_towards_eval id player.x player.y game.map objects mob hwf hmob
    by_cases h1 : can_step game.map objects (mob.x + normalize (player.x - mob.x))
        (mob.y + normalize (player.y - mob.y))
    · rw [if_pos h1] at hmt
      have hat : ai_take_turn id game objects =
          some (game, objects.set id (mob.set_pos (mob.x + normalize (player.x - mob.x))
            (mob.y + normalize (player.y - mob.y)))) := by
        unfold ai_take_turn
        rw [if_neg hPL, hmob, hplayer]
        dsimp only
        rw [if_pos hdist, hmt]
      obtain ⟨hl, hf, hm⟩ := set_frame objects id mob
        (mob.set_pos (mob.x + normalize (player.x - mob.x)) (mob.y + normalize (player.y - mob.y)))
        hmob (fun h => h) (fun h => h)
      exact ⟨_, _, hat, rfl, hl, fun k hk _ => hf k hk, hm⟩
    · rw [if_neg h1] at hmt
      by_cases h2 : can_step game.map objects (mob.x + normalize (player.x - mob.x)) mob.y
      · rw [if_pos h2] at hmt
        have hat : ai_take_turn id game objects =
            some (game, objects.set id (mob.set_pos (mob.x + normalize (player.x - mob.x))
              mob.y)) := by
          unfold ai_take_turn
          rw [if_neg hPL, hmob, hplayer]
          dsimp only
          rw [if_pos hdist, hmt]
        obtain ⟨hl, hf, hm⟩ := set_frame objects id mob
          (mob.set_pos (mob.x + normalize (player.x - mob.x)) mob.y)
          hmob (fun h => h) (fun h => h)
        exact ⟨_, _, hat, rfl, hl, fun k hk _ => hf k hk, hm⟩
      · rw [if_neg h2] at hmt
        by_cases h3 : can_step game.map objects mob.x (mob.y + normalize (player.y - mob.y))
        · rw [if_pos h3] at hmt
          have hat : ai_take_turn id game objects =
              some (game, objects.set id (mob.set_pos mob.x
                (mob.y + normalize (player.y - mob.y)))) := by
            unfold ai_take_turn
            rw [if_neg hPL, hmob, hplayer]
            dsimp only
            rw [if_pos hdist, hmt]
          obtain ⟨hl, hf, hm⟩ := set_frame objects id mob
            (mob.set_pos mob.x (mob.y + normalize (player.y - mob.y)))
            hmob (fun h => h) (fun h => h)
          exact ⟨_, _, hat, rfl, hl, fun k hk _ => hf k hk, hm⟩
        · rw [if_neg h3] at hmt
          have hat : ai_take_turn id game objects = some (game, objects) := by
            unfold ai_take_turn
            rw [if_neg hPL, hmob, hplayer]
            dsimp only
            rw [if_pos hdist, hmt]
          refine ⟨_, _, hat, rfl, rfl, fun k _ _ => rfl, ?_⟩
          intro k o o' ho ho'
          rw [ho] at ho'
          injection ho' with he
          subst he
          exact ⟨fun h => h, fun h => h⟩
  · cases hpf : player.fighter with
    | none =>
      have hat : ai_take_turn id game objects = some (game, objects) := by
        unfold ai_take_turn
        rw [if_neg hPL, hmob, hplayer]
        dsimp only
        rw [if_neg hdist, hpf]
      refine ⟨_, _, hat, rfl, rfl, fun k _ _ => rfl, ?_⟩
      intro k o o' ho ho'
      rw [ho] at ho'
      injection ho' with he
      subst he
      exact ⟨fun h => h, fun h => h⟩
    | some f =>
      by_cases hhp : 0 < f.hp
      · have hat : ai_take_turn id game objects =
            some ((mob.attack player game).2, objects.set PLAYER (mob.attack player game).1) := by
          unfold ai_take_turn
          rw [if_neg hPL, hmob, hplayer]
          dsimp only
          rw [if_neg hdist, hpf]
          dsimp only
          rw [if_pos hhp]
        obtain ⟨hseen, hai, hmap⟩ := attack_frame mob player game
        obtain ⟨hl, hf2, hm⟩ := set_frame objects PLAYER player (mob.attack player game).1 hplayer
          (by rw [hseen]; exact fun h => h)
          (fun h => by
            rcases hai with hai | hai
            · rw [hai]
              exact h
            · exact hai)
        exact ⟨_, _, hat, hmap, hl, fun k _ hk0 => hf2 k hk0, hm⟩
      · have hat : ai_take_turn id game objects = some (game, objects) := by
          unfold ai_take_turn
          rw [if_neg hPL, hmob, hplayer]
          dsimp only
          rw [if_neg hdist, hpf]
          dsimp only
          rw [if_neg hhp]
        refine ⟨_, _, hat, rfl, rfl, fun k _ _ => rfl, ?_⟩
        intro k o o' ho ho'
        rw [ho] at ho'
        injection ho' with he
        subst he
        exact ⟨fun h => h, fun h => h⟩

theorem ai_gate_zero_false (fov : Int → Int → Bool) (objects : List Object)
    (h : ∀ o : Object, objects[0]? = some o → o.ai = none) :
    ai_gate fov objects 0 = false := by
  unfold ai_gate
  cases ho : objects[0]? with
  | none => rfl
  | some o =>
    dsimp only
    rw [h o ho]
    simp

theorem monster_loop_spec (fov : Int → Int → Bool) (ids : List Nat) :
    ∀ (game : Game) (objects : List Object) (acted : List Nat),
      wf_map game.map →
      (∀ id ∈ ids, id < objects.length) →
      ids.Nodup →
      (∀ o : Object, objects[0]? = some o → o.ai = none) →
      ∃ game' objects' acted',
        monster_loop fov ids game objects acted = some (game', objects', acted') ∧
        acted' = acted ++ ids.filter (ai_gate fov objects) ∧
        objects'.length = objects.length ∧
        (∀ (k : Nat) (o o' : Object), objects[k]? = some o → objects'[k]? = some o' →
          o.was_seen = true → o'.was_seen = true) ∧
        (∀ o : Object, objects'[0]? = some o → o.ai = none) := by
  induction ids with
  | nil =>
    intro game objects acted _ _ _ hai0
    refine ⟨game, objects, acted, rfl, by simp, rfl, ?_, hai0⟩
    intro k o o' ho ho' hs
    rw [ho] at ho'
    injection ho' with he
    subst he
    exact hs
  | cons id ids ih =>
    intro game objects acted hwf hids hnd hai0
    have hidlt : id < objects.length := hids id (List.mem_cons_self _ _)
    have hlenpos : 0 < objects.length := by omega
    obtain ⟨ob0, hob0⟩ : ∃ o, objects[id]? = some o := ⟨_, List.getElem?_eq_getElem hidlt⟩
    obtain ⟨obNew, hobNew⟩ :
        ∃ o, (if !ob0.was_seen && fov ob0.x ob0.y then { ob0 with was_seen := true } else ob0) = o :=
      ⟨_, rfl⟩
    have halive : obNew.is_alive = ob0.is_alive := by
      rw [← hobNew]
      split <;> rfl
    have haiEq : obNew.ai = ob0.ai := by
      rw [← hobNew]
      split <;> rfl
    have hws : obNew.was_seen = (ob0.was_seen || fov ob0.x ob0.y) := by
      rw [← hobNew]
      cases hb : ob0.was_seen <;> cases hf2 : fov ob0.x ob0.y <;> simp [hb, hf2]
    have hgateEq : (obNew.is_alive && obNew.ai.isSome && obNew.was_seen) =
        ai_gate fov objects id := by
      unfold ai_gate
      rw [hob0, halive, haiEq, hws]
    obtain ⟨hlen1, hfr1, hm1⟩ := set_frame objects id ob0 obNew hob0
      (by rw [hws]; intro h; rw [h]; rfl)
      (by rw [haiEq]; exact fun h => h)
    have hid1 : (objects.set id obNew)[id]? = some obNew := List.getElem?_set_self hidlt
    have hai01 : ∀ o : Object, (objects.set id obNew)[0]? = some o → o.ai = none := by
      intro o ho
      by_cases h0 : id = 0
      · subst h0
        rw [hid1] at ho
        injection ho with he
        subst he
        rw [haiEq]
        exact hai0 ob0 hob0
      · rw [hfr1 0 (fun hc => h0 hc.symm)] at ho
        exact hai0 o ho
    by_cases hg : ai_gate fov objects id = true
    · have hcond : (obNew.is_alive && obNew.ai.isSome && obNew.was_seen) = true :=
        hgateEq.trans hg
      have hid0 : id ≠ 0 := by
        intro h0
        subst h0
        have hain : obNew.ai = none := haiEq.trans (hai0 ob0 hob0)
        rw [hain] at hcond
        simp at hcond
      obtain ⟨game2, objects2, hat, hmap2, hlen2, hfr2, hpres2⟩ :=
        ai_take_turn_spec id game (objects.set id obNew) obNew hwf hid0 hid1
          (by rw [hlen1]; exact hlenpos)
      have hstep : monster_loop fov (id :: ids) game objects acted =
          monster_loop fov ids game2 objects2 (acted ++ [id]) := by
        simp only [monster_loop]
        rw [hob0]
        dsimp only
        rw [hobNew, if_pos hcond, hat]
      have hai02 : ∀ o : Object, objects2[0]? = some o → o.ai = none := by
        intro o ho
        obtain ⟨p1, hp1⟩ : ∃ p, (objects.set id obNew)[0]? = some p :=
          ⟨_, List.getElem?_eq_getElem (by rw [hlen1]; exact hlenpos)⟩
        exact (hpres2 0 p1 o hp1 ho).2 (hai01 p1 hp1)
      obtain ⟨game3, objects3, acted3, hloop, hacted, hlen3, hpres3, hai03⟩ :=
        ih game2 objects2 (acted ++ [id])
          (by rw [hmap2]; exact hwf)
          (by
            intro i hi
            rw [hlen2, hlen1]
            exact hids i (List.mem_cons_of_mem _ hi))
          (List.nodup_cons.mp hnd).2
          hai02
      have hfc : ids.filter (ai_gate fov objects2) = ids.filter (ai_gate fov objects) := by
        apply List.filter_congr
        intro x hx
        by_cases hx0 : x = 0
        · subst hx0
          rw [ai_gate_zero_false fov objects2 hai02, ai_gate_zero_false fov objects hai0]
        · have hxid : x ≠ id := by
            intro hc
            subst hc
            exact (List.nodup_cons.mp hnd).1 hx
          have hxeq : objects2[x]? = objects[x]? := by
            rw [hfr2 x hxid hx0, hfr1 x hxid]
          unfold ai_gate
          rw [hxeq]
      refine ⟨game3, objects3, acted3, by rw [hstep]; exact hloop, ?_, ?_, ?_, hai03⟩
      · rw [hacted, hfc, List.filter_cons, if_pos hg]
        simp
      · rw [hlen3, hlen2, hlen1]
      · intro k o o' ho ho3 hs
        have hk : k < objects.length := (List.getElem?_eq_some.mp ho).1
        obtain ⟨o1, ho1⟩ : ∃ o1, (objects.set id obNew)[k]? = some o1 :=
          ⟨_, List.getElem?_eq_getElem (by rw [hlen1]; exact hk)⟩
        obtain ⟨o2, ho2⟩ : ∃ o2, objects2[k]? = some o2 :=
          ⟨_, List.getElem?_eq_getElem (by rw [hlen2, hlen1]; exact hk)⟩
        exact hpres3 k o2 o' ho2 ho3 ((hpres2 k o1 o2 ho1 ho2).1 ((hm1 k o o1 ho ho1).1 hs))
    · have hgf : ai_gate fov objects id = false := by
        cases h2 : ai_gate fov objects id
        · rfl
        · exact absurd h2 hg
      have hcond : (obNew.is_alive && obNew.ai.isSome && obNew.was_seen) = false :=
        hgateEq.trans hgf
      have hstep : monster_loop fov (id :: ids) game objects acted =
          monster_loop fov ids game (objects.set id obNew) acted := by
        simp only [monster_loop]
        rw [hob0]
        dsimp only
        rw [hobNew, if_neg (by simp [hcond])]
      obtain ⟨game3, objects3, acted3, hloop, hacted, hlen3, hpres3, hai03⟩ :=
        ih game (objects.set id obNew) acted hwf
          (by
            intro i hi
            rw [hlen1]
            exact hids i (List.mem_cons_of_mem _ hi))
          (List.nodup_cons.mp hnd).2
          hai01
      have hfc : ids.filter (ai_gate fov (objects.set id obNew)) =
          ids.filter (ai_gate fov objects) := by
        apply List.filter_congr
        intro x hx
        by_cases hxid : x = id
        · subst hxid
          exact absurd hx (List.nodup_cons.mp hnd).1
        · unfold ai_gate
          rw [hfr1 x hxid]
      refine ⟨game3, objects3, acted3, by rw [hstep]; exact hloop, ?_, ?_, ?_, hai03⟩
      · rw [hacted, hfc, List.filter_cons, if_neg (by simp [hgf])]
      · rw [hlen3, hlen1]
      · intro k o o' ho ho3 hs
        have hk : k < objects.length := (List.getElem?_eq_some.mp ho).1
        obtain ⟨o1, ho1⟩ : ∃ o1, (objects.set id obNew)[k]? = some o1 :=
          ⟨_, List.getElem?_eq_getElem (by rw [hlen1]; exact hk)⟩
        exact hpres3 k o1 o' ho1 ho3 ((hm1 k o o1 ho ho1).1 hs)

/-- C3: in one iteration of the main loop, a monster's `ai_take_turn` runs if
and only if the player action was `TookTurn` (never on `DidntTakeTurn`, and an
`Exit` breaks out before the monster phase), the player was alive at the start
of the monster phase, and the monster is alive, has an ai capability, and
either was already seen or is in the current visible set (`ai_gate`); moreover
the `was_seen` flag, once true, is never cleared by the phase. -/
theorem C3_turn_gating (fov : Int → Int → Bool) (action : PlayerAction) (game : Game)
    (objects : List Object) (player : Object)
    (hwf : wf_map game.map) (hplayer : objects[PLAYER]? = some player)
    (hai0 : player.ai = none) :
    ∃ game' objects' acted,
      monsters_turn fov action game objects = some (game', objects', acted) ∧
      (∀ id : Nat, id ∈ acted ↔
        (action = PlayerAction.TookTurn ∧ player.is_alive = true ∧
          ai_gate fov objects id = true ∧ id < objects.length)) ∧
      (∀ (k : Nat) (o o' : Object), objects[k]? = some o → objects'[k]? = some o' →
        o.was_seen = true → o'.was_seen = true) := by
  have hsame : ∀ (k : Nat) (o o' : Object), objects[k]? = some o → objects[k]? = some o' →
      o.was_seen = true → o'.was_seen = true := by
    intro k o o' ho ho' hs
    rw [ho] at ho'
    injection ho' with he
    subst he
    exact hs
  unfold monsters_turn
  cases action with
  | Exit =>
    rw [if_pos rfl]
    refine ⟨game, objects, [], rfl, ?_, hsame⟩
    intro id
    simp
  | DidntTakeTurn =>
    rw [if_neg (by simp), if_neg (fun hc => hc.2 rfl)]
    refine ⟨game, objects, [], rfl, ?_, hsame⟩
    intro id
    simp
  | TookTurn =>
    rw [if_neg (by simp)]
    have hplayer0 : objects[0]? = some player := hplayer
    by_cases halive : player.is_alive = true
    · rw [if_pos ⟨by rw [hplayer]; simpa using halive, by simp⟩]
      obtain ⟨g', o', a', hloop, hacted, _, hpres, _⟩ :=
        monster_loop_spec fov (List.range objects.length) game objects [] hwf
          (by
            intro i hi
            simpa [List.mem_range] using hi)
          (List.nodup_range _)
          (fun o ho => by
            rw [hplayer0] at ho
            injection ho with he
            subst he
            exact hai0)
      refine ⟨g', o', a', hloop, ?_, hpres⟩
      intro id
      rw [hacted]
      simp only [List.nil_append, List.mem_filter, List.mem_range]
      constructor
      · rintro ⟨hidr, hgate⟩
        exact ⟨by trivial, halive, hgate, hidr⟩
      · rintro ⟨_, _, hgate, hidr⟩
        exact ⟨hidr, hgate⟩
    · rw [if_neg (fun hc => halive (by rw [hplayer] at hc; simpa using hc.1))]
      refine ⟨game, objects, [], rfl, ?_, hsame⟩
      intro id
      simp [halive]

/-- C3 witness: a seen, living orc acts after a `TookTurn` action of the living
player. -/
theorem C3_turn_gating_witness :
    wf_map ex_game_open.map ∧
    [ex_player_at_10_12, ex_orc_at_10_10][PLAYER]? = some ex_player_at_10_12 ∧
    ex_player_at_10_12.ai = none ∧
    (∃ game' objects' acted,
      monsters_turn (fun _ _ => true) PlayerAction.TookTurn ex_game_open
        [ex_player_at_10_12, ex_orc_at_10_10] = some (game', objects', acted) ∧
      (∀ id : Nat, id ∈ acted ↔
        (PlayerAction.TookTurn = PlayerAction.TookTurn ∧ ex_player_at_10_12.is_alive = true ∧
          ai_gate (fun _ _ => true) [ex_player_at_10_12, ex_orc_at_10_10] id = true ∧
          id < [ex_player_at_10_12, ex_orc_at_10_10].length)) ∧
      (∀ (k : Nat) (o o' : Object), [ex_player_at_10_12, ex_orc_at_10_10][k]? = some o →
        objects'[k]? = some o' → o.was_seen = true → o'.was_seen = true)) :=
  ⟨by decide, by decide, by decide,
    C3_turn_gating (fun _ _ => true) PlayerAction.TookTurn ex_game_open
      [ex_player_at_10_12, ex_orc_at_10_10] ex_player_at_10_12 (by decide) (by decide) (by decide)⟩

theorem fold_pres {α : Type} (P : GameMap → Prop) (f : GameMap → α → GameMap)
    (hf : ∀ (m : GameMap) (a : α), P m → P (f m a)) (l : List α) (m : GameMap) (h : P m) :
    P (l.foldl f m) := by
  induction l generalizing m with
  | nil => exact h
  | cons a l ih => exact ih _ (hf m a h)

theorem walkable_at_set_empty (m : GameMap) (x y a b : Int) (h : walkable_at m a b) :
    walkable_at (set_tile m x y Tile.empty) a b := by
  obtain ⟨t, ht, hw⟩ := h
  by_cases hc : a = x ∧ b = y ∧ (tile_lookup m x y).isSome = true
  · exact ⟨Tile.empty, by rw [tile_lookup_set_tile, if_pos hc], rfl⟩
  · exact ⟨t, by rw [tile_lookup_set_tile, if_neg hc, ht], hw⟩

theorem walkable_at_set_empty_self (m : GameMap) (x y : Int)
    (hs : (tile_lookup m x y).isSome = true) :
    walkable_at (set_tile m x y Tile.empty) x y :=
  ⟨Tile.empty, by rw [tile_lookup_set_tile, if_pos ⟨rfl, rfl, hs⟩], rfl⟩

theorem tile_lookup_isSome_of_wf (m : GameMap) (x y : Int) (hwf : wf_map m)
    (hx0 : 0 ≤ x) (hxW : x < MAP_WIDTH) (hy0 : 0 ≤ y) (hyH : y < MAP_HEIGHT) :
    (tile_lookup m x y).isSome = true := by
  obtain ⟨t, ht⟩ := tile_lookup_of_wf m x y hwf hx0 hxW hy0 hyH
  rw [ht]
  rfl

theorem make_h_tunnel_mono (x1 x2 y : Int) (m : GameMap) (a b : Int)
    (h : walkable_at m a b) : walkable_at (make_h_tunnel x1 x2 y m) a b :=
  fold_pres (fun m => walkable_at m a b) _
    (fun m x h => walkable_at_set_empty m x y a b h) _ m h

theorem make_h_tunnel_wf (x1 x2 y : Int) (m : GameMap) (hwf : wf_map m) :
    wf_map (make_h_tunnel x1 x2 y m) :=
  fold_pres wf_map _ (fun m x h => wf_map_set_tile m x y Tile.empty h) _ m hwf

theorem make_v_tunnel_mono (y1 y2 x : Int) (m : GameMap) (a b : Int)
    (h : walkable_at m a b) : walkable_at (make_v_tunnel y1 y2 x m) a b :=
  fold_pres (fun m => walkable_at m a b) _
    (fun m y h => walkable_at_set_empty m x y a b h) _ m h

theorem make_v_tunnel_wf (y1 y2 x : Int) (m : GameMap) (hwf : wf_map m) :
    wf_map (make_v_tunnel y1 y2 x m) :=
  fold_pres wf_map _ (fun m y h => wf_map_set_tile m x y Tile.empty h) _ m hwf

theorem make_room_mono (room : Rect) (m : GameMap) (a b : Int)
    (h : walkable_at m a b) : walkable_at (make_room room m) a b :=
  fold_pres (fun m => walkable_at m a b) _
    (fun m x h =>
      fold_pres (fun m => walkable_at m a b) _
        (fun m y h => walkable_at_set_empty m x y a b h) _ m h) _ m h

theorem make_room_wf (room : Rect) (m : GameMap) (hwf : wf_map m) :
    wf_map (make_room room m) :=
  fold_pres wf_map _
    (fun m x h => fold_pres wf_map _ (fun m y h => wf_map_set_tile m x y Tile.empty h) _ m h)
    _ m hwf

theorem make_h_tunnel_cover (x1 x2 y : Int) (m : GameMap) (hwf : wf_map m) (x : Int)
    (hx1 : min x1 x2 ≤ x) (hx2 : x ≤ max x1 x2)
    (hxb0 : 0 ≤ x) (hxbW : x < MAP_WIDTH) (hyb0 : 0 ≤ y) (hybH : y < MAP_HEIGHT) :
    walkable_at (make_h_tunnel x1 x2 y m) x y := by
  unfold make_h_tunnel
  have hmem : x ∈ range_i (min x1 x2) (max x1 x2 + 1) :=
    (mem_range_i _ _ _).mpr ⟨hx1, by omega⟩
  clear hx1 hx2
  generalize range_i (min x1 x2) (max x1 x2 + 1) = xs at hmem
  induction xs generalizing m with
  | nil => cases hmem
  | cons x0 xs ih =>
    rw [List.foldl_cons]
    rcases List.mem_cons.mp hmem with rfl | hx'
    · have hw := walkable_at_set_empty_self m x y
        (tile_lookup_isSome_of_wf m x y hwf hxb0 hxbW hyb0 hybH)
      exact fold_pres (fun m => walkable_at m x y) _
        (fun m a h => walkable_at_set_empty m a y x y h) xs _ hw
    · exact ih _ (wf_map_set_tile m x0 y Tile.empty hwf) hx'

theorem make_v_tunnel_cover (y1 y2 x : Int) (m : GameMap) (hwf : wf_map m) (y : Int)
    (hy1 : min y1 y2 ≤ y) (hy2 : y ≤ max y1 y2)
    (hxb0 : 0 ≤ x) (hxbW : x < MAP_WIDTH) (hyb0 : 0 ≤ y) (hybH : y < MAP_HEIGHT) :
    walkable_at (make_v_tunnel y1 y2 x m) x y := by
  unfold make_v_tunnel
  have hmem : y ∈ range_i (min y1 y2) (max y1 y2 + 1) :=
    (mem_range_i _ _ _).mpr ⟨hy1, by omega⟩
  clear hy1 hy2
  generalize range_i (min y1 y2) (max y1 y2 + 1) = ys at hmem
  induction ys generalizing m with
  | nil => cases hmem
  | cons y0 ys ih =>
    rw [List.foldl_cons]
    rcases List.mem_cons.mp hmem with rfl | hy'
    · have hw := walkable_at_set_empty_self m x y
        (tile_lookup_isSome_of_wf m x y hwf hxb0 hxbW hyb0 hybH)
      exact fold_pres (fun m => walkable_at m x y) _
        (fun m b h => walkable_at_set_empty m x b x y h) ys _ hw
    · exact ih _ (wf_map_set_tile m x y0 Tile.empty hwf) hy'

theorem make_room_cover (room : Rect) (m : GameMap) (hwf : wf_map m) (p : Int × Int)
    (hp : room_interior room p) (hb : room_in_bounds room) :
    walkable_at (make_room room m) p.1 p.2 := by
  obtain ⟨hp1, hp2, hp3, hp4⟩ := hp
  obtain ⟨hb1, hb2, hb3, hb4⟩ := hb
  simp only [MAP_WIDTH, MAP_HEIGHT] at hb2 hb4
  unfold make_room
  have hxmem : p.1 ∈ range_i (room.x1 + 1) room.x2 := (mem_range_i _ _ _).mpr ⟨by omega, hp2⟩
  have hymem : p.2 ∈ range_i (room.y1 + 1) room.y2 := (mem_range_i _ _ _).mpr ⟨by omega, hp4⟩
  have hxb0 : 0 ≤ p.1 := by omega
  have hxbW : p.1 < MAP_WIDTH := by simp only [MAP_WIDTH]; omega
  have hyb0 : 0 ≤ p.2 := by omega
  have hybH : p.2 < MAP_HEIGHT := by simp only [MAP_HEIGHT]; omega
  clear hp1 hp2 hp3 hp4 hb1 hb2 hb3 hb4
  generalize range_i (room.x1 + 1) room.x2 = xs at hxmem
  generalize range_i (room.y1 + 1) room.y2 = ys at hymem
  induction xs generalizing m with
  | nil => cases hxmem
  | cons x0 xs ih =>
    rw [List.foldl_cons]
    rcases List.mem_cons.mp hxmem with rfl | hx'
    · have hinner : walkable_at (ys.foldl (fun m y => set_tile m p.1 y Tile.empty) m) p.1 p.2 := by
        clear ih
        induction ys generalizing m with
        | nil => cases hymem
        | cons y0 ys ih2 =>
          rw [List.foldl_cons]
          rcases List.mem_cons.mp hymem with rfl | hy'
          · have hw := walkable_at_set_empty_self m p.1 p.2
              (tile_lookup_isSome_of_wf m p.1 p.2 hwf hxb0 hxbW hyb0 hybH)
            exact fold_pres (fun m => walkable_at m p.1 p.2) _
              (fun m b h => walkable_at_set_empty m p.1 b p.1 p.2 h) ys _ hw
          · exact ih2 hy' _ (wf_map_set_tile m p.1 y0 Tile.empty hwf)
      exact fold_pres (fun m => walkable_at m p.1 p.2) _
        (fun m a h =>
          fold_pres (fun m => walkable_at m p.1 p.2) _
            (fun m b h => walkable_at_set_empty m a b p.1 p.2 h) ys m h) xs _ hinner
    · exact ih _
        (fold_pres wf_map _ (fun m b h => wf_map_set_tile m x0 b Tile.empty h) ys m hwf) hx'

theorem walk_step_symmetric (walk : Int → Int → Prop) : Symmetric (walk_step walk) := by
  intro p q h
  obtain ⟨hp, hq, hadj⟩ := h
  refine ⟨hq, hp, ?_⟩
  unfold adjacent_step at hadj ⊢
  omega

theorem reachable_symm (walk : Int → Int → Prop) {p q : Int × Int}
    (h : reachable walk p q) : reachable walk q p :=
  Relation.ReflTransGen.symmetric (walk_step_symmetric walk) h

theorem reachable_mono {walk walk' : Int → Int → Prop}
    (hsub : ∀ a b, walk a b → walk' a b) {p q : Int × Int} (h : reachable walk p q) :
    reachable walk' p q :=
  Relation.ReflTransGen.mono
    (fun _ _ hs => ⟨hsub _ _ hs.1, hsub _ _ hs.2.1, hs.2.2⟩) h

theorem reachable_step_right (walk : Int → Int → Prop) (y x1 : Int) :
    ∀ n : Nat, (∀ x : Int, x1 ≤ x → x ≤ x1 + n → walk x y) →
      reachable walk (x1, y) (x1 + (n : Int), y) := by
  intro n
  induction n with
  | zero =>
    intro _
    have he : x1 + ((0 : Nat) : Int) = x1 := by omega
    rw [he]
    exact Relation.ReflTransGen.refl
  | succ n ih =>
    intro h
    refine Relation.ReflTransGen.tail (ih (fun x h1 h2 => h x h1 (by omega))) ?_
    refine ⟨h _ (by omega) (by omega), h _ (by omega) (by omega), ?_⟩
    unfold adjacent_step
    dsimp only
    omega

theorem reach_horiz (walk : Int → Int → Prop) (y x1 x2 : Int)
    (h : ∀ x : Int, min x1 x2 ≤ x → x ≤ max x1 x2 → walk x y) :
    reachable walk (x1, y) (x2, y) := by
  rcases le_total x1 x2 with hle | hle
  · have hr := reachable_step_right walk y x1 (x2 - x1).toNat
      (fun x ha hb => h x (by omega) (by omega))
    have he : x1 + ((x2 - x1).toNat : Int) = x2 := by omega
    rw [he] at hr
    exact hr
  · have hr := reachable_step_right walk y x2 (x1 - x2).toNat
      (fun x ha hb => h x (by omega) (by omega))
    have he : x2 + ((x1 - x2).toNat : Int) = x1 := by omega
    rw [he] at hr
    exact reachable_symm walk hr

theorem reachable_step_up (walk : Int → Int → Prop) (x y1 : Int) :
    ∀ n : Nat, (∀ y : Int, y1 ≤ y → y ≤ y1 + n → walk x y) →
      reachable walk (x, y1) (x, y1 + (n : Int)) := by
  intro n
  induction n with
  | zero =>
    intro _
    have he : y1 + ((0 : Nat) : Int) = y1 := by omega
    rw [he]
    exact Relation.ReflTransGen.refl
  | succ n ih =>
    intro h
    refine Relation.ReflTransGen.tail (ih (fun y h1 h2 => h y h1 (by omega))) ?_
    refine ⟨h _ (by omega) (by omega), h _ (by omega) (by omega), ?_⟩
    unfold adjacent_step
    dsimp only
    omega

theorem reach_vert (walk : Int → Int → Prop) (x y1 y2 : Int)
    (h : ∀ y : Int, min y1 y2 ≤ y → y ≤ max y1 y2 → walk x y) :
    reachable walk (x, y1) (x, y2) := by
  rcases le_total y1 y2 with hle | hle
  · have hr := reachable_step_up walk x y1 (y2 - y1).toNat
      (fun y ha hb => h y (by omega) (by omega))
    have he : y1 + ((y2 - y1).toNat : Int) = y2 := by omega
    rw [he] at hr
    exact hr
  · have hr := reachable_step_up walk x y2 (y1 - y2).toNat
      (fun y ha hb => h y (by omega) (by omega))
    have he : y2 + ((y1 - y2).toNat : Int) = y1 := by omega
    rw [he] at hr
    exact reachable_symm walk hr

theorem reach_in_room (walk : Int → Int → Prop) (r : Rect)
    (hW : ∀ a b : Int, r.x1 < a → a < r.x2 → r.y1 < b → b < r.y2 → walk a b)
    (p q : Int × Int) (hp : room_interior r p) (hq : room_interior r q) :
    reachable walk p q := by
  obtain ⟨pa, pb⟩ := p
  obtain ⟨qa, qb⟩ := q
  obtain ⟨hp1, hp2, hp3, hp4⟩ := hp
  obtain ⟨hq1, hq2, hq3, hq4⟩ := hq
  dsimp only at hp1 hp2 hp3 hp4 hq1 hq2 hq3 hq4
  have h1 : reachable walk (pa, pb) (qa, pb) :=
    reach_horiz walk pb pa qa (fun x h1 h2 => hW x pb (by omega) (by omega) hp3 hp4)
  have h2 : reachable walk (qa, pb) (qa, qb) :=
    reach_vert walk qa pb qb (fun y h1 h2 => hW qa y hq1 hq2 (by omega) (by omega))
  exact h1.trans h2

theorem center_in_interior (r : Rect) (hx0 : 0 ≤ r.x1) (hy0 : 0 ≤ r.y1)
    (hw : r.x1 + 2 ≤ r.x2) (hh : r.y1 + 2 ≤ r.y2) :
    room_interior r r.center := by
  unfold Rect.center room_interior
  dsimp only
  rw [Int.tdiv_eq_ediv (by omega) (by omega), Int.tdiv_eq_ediv (by omega) (by omega)]
  omega

theorem center_bounds (r : Rect) (hb : room_in_bounds r)
    (hw : r.x1 + 2 ≤ r.x2) (hh : r.y1 + 2 ≤ r.y2) :
    0 ≤ (r.center).1 ∧ (r.center).1 < MAP_WIDTH ∧ 0 ≤ (r.center).2 ∧
      (r.center).2 < MAP_HEIGHT := by
  obtain ⟨hb1, hb2, hb3, hb4⟩ := hb
  have hint := center_in_interior r hb1 hb3 hw hh
  obtain ⟨h1, h2, h3, h4⟩ := hint
  exact ⟨by omega, by omega, by omega, by omega⟩

theorem place_objects_append (room : Rect) (choices : List MonsterChoice) :
    ∀ objects : List Object, ∃ t, place_objects room choices objects = objects ++ t := by
  induction choices with
  | nil => exact fun objects => ⟨[], by simp [place_objects]⟩
  | cons c cs ih =>
    intro objects
    have hstep : place_objects room (c :: cs) objects =
        place_objects room cs
          (if is_blocked_by_object c.x c.y objects then objects
           else objects ++ [if c.isOrc then make_orc c.x c.y else make_troll c.x c.y]) := by
      simp only [place_objects, List.foldl_cons]
    rw [hstep]
    by_cases hb : is_blocked_by_object c.x c.y objects = true
    · rw [if_pos hb]
      exact ih objects
    · rw [if_neg hb]
      obtain ⟨t, ht⟩ :=
        ih (objects ++ [if c.isOrc then make_orc c.x c.y else make_troll c.x c.y])
      exact ⟨(if c.isOrc then make_orc c.x c.y else make_troll c.x c.y) :: t, by rw [ht]; simp⟩

theorem place_objects_get0 (room : Rect) (choices : List MonsterChoice)
    (objects : List Object) (h : 0 < objects.length) :
    (place_objects room choices objects)[0]? = objects[0]? ∧
    0 < (place_objects room choices objects).length := by
  obtain ⟨t, ht⟩ := place_objects_append room choices objects
  rw [ht]
  exact ⟨List.getElem?_append_left h, by rw [List.length_append]; omega⟩

theorem set_object_pos_facts (objects : List Object) (x y : Int) (h : 0 < objects.length) :
    (set_object_pos objects PLAYER x y).length = objects.length ∧
    (0 < (set_object_pos objects PLAYER x y).length) ∧
    ∀ po : Object, (set_object_pos objects PLAYER x y)[0]? = some po → po.x = x ∧ po.y = y := by
  unfold set_object_pos PLAYER
  cases ho : objects[0]? with
  | none =>
    exfalso
    have hg : objects[0]? = some objects[0] := List.getElem?_eq_getElem h
    rw [ho] at hg
    cases hg
  | some o =>
    dsimp only
    refine ⟨List.length_set _ _ _, by rw [List.length_set]; exact h, ?_⟩
    intro po hpo
    rw [List.getElem?_set_self h] at hpo
    injection hpo with he
    rw [← he]
    exact ⟨rfl, rfl⟩

theorem wf_map_initial : wf_map initial_map := by
  unfold wf_map initial_map
  constructor
  · simp
  · intro col hcol
    rw [List.eq_of_mem_replicate hcol]
    simp

theorem make_map_step_gen_inv (st : GenState) (c : RoomChoice) (hok : choice_ok c)
    (hinv : gen_inv st) : gen_inv (make_map_step st c) := by
  obtain ⟨hwf, hlen, hrooms, hwalk, hprev, hspawn⟩ := hinv
  obtain ⟨hcw, hch, hcx0, hcxW, hcy0, hcyH⟩ := hok
  unfold make_map_step
  dsimp only
  by_cases hb : st.rooms.any
      (fun other_room => (Rect.new c.x c.y c.w c.h).intersects_with other_room) = true
  · rw [if_pos hb]
    exact ⟨hwf, hlen, hrooms, hwalk, hprev, hspawn⟩
  · rw [if_neg hb]
    have hrb : room_in_bounds (Rect.new c.x c.y c.w c.h) := by
      unfold room_in_bounds Rect.new
      exact ⟨hcx0, hcxW, hcy0, hcyH⟩
    have hge2x : (Rect.new c.x c.y c.w c.h).x1 + 2 ≤ (Rect.new c.x c.y c.w c.h).x2 := by
      simp only [Rect.new]
      omega
    have hge2y : (Rect.new c.x c.y c.w c.h).y1 + 2 ≤ (Rect.new c.x c.y c.w c.h).y2 := by
      simp only [Rect.new]
      omega
    have hnc_int : room_interior (Rect.new c.x c.y c.w c.h) (Rect.new c.x c.y c.w c.h).center :=
      center_in_interior _ hrb.1 hrb.2.2.1 hge2x hge2y
    have hnc_b := center_bounds _ hrb hge2x hge2y
    have hwf1 : wf_map (make_room (Rect.new c.x c.y c.w c.h) st.map) :=
      make_room_wf _ _ hwf
    by_cases hemp : st.rooms.isEmpty = true
    · rw [if_pos hemp]
      have hnil : st.rooms = [] := List.isEmpty_iff.mp hemp
      obtain ⟨hpl, hpl0, hppos⟩ := set_object_pos_facts
        (place_objects (Rect.new c.x c.y c.w c.h) c.monsters st.objects)
        ((Rect.new c.x c.y c.w c.h).center).1 ((Rect.new c.x c.y c.w c.h).center).2
        (place_objects_get0 (Rect.new c.x c.y c.w c.h) c.monsters st.objects hlen).2
      unfold gen_inv
      dsimp only
      rw [hnil]
      simp only [List.nil_append]
      refine ⟨hwf1, hpl0, ?_, ?_, ?_, ?_⟩
      · intro r hr
        rw [List.mem_singleton] at hr
        subst hr
        exact ⟨hrb, hge2x, hge2y⟩
      · intro r hr p hp
        rw [List.mem_singleton] at hr
        subst hr
        exact make_room_cover _ st.map hwf p hp hrb
      · exact Or.inr ⟨Rect.new c.x c.y c.w c.h, by simp, rfl, rfl⟩
      · intro r0 h0
        have hr0 : r0 = Rect.new c.x c.y c.w c.h := by
          injection h0 with he
          exact he.symm
        subst hr0
        refine ⟨hppos, ?_⟩
        intro r hr p hp
        rw [List.mem_singleton] at hr
        subst hr
        exact reach_in_room _ _
          (fun a b h1 h2 h3 h4 =>
            make_room_cover _ st.map hwf (a, b) ⟨h1, h2, h3, h4⟩ hrb)
          _ p hnc_int hp
    · rw [if_neg hemp]
      have hne : st.rooms ≠ [] := by
        have hf : st.rooms.isEmpty = false := by
          cases h2 : st.rooms.isEmpty
          · rfl
          · exact absurd h2 hemp
        exact List.isEmpty_eq_false.mp hf
      obtain ⟨r0, hr0⟩ : ∃ r0, st.rooms.head? = some r0 := by
        cases hc : st.rooms with
        | nil => exact absurd hc hne
        | cons a l => exact ⟨a, rfl⟩
      obtain ⟨hpos0, hreach0⟩ := hspawn r0 hr0
      obtain ⟨rl, hrl, hpx, hpy⟩ := hprev.resolve_left hne
      have hrlmem : rl ∈ st.rooms := List.mem_of_mem_getLast? hrl
      obtain ⟨hrlb, hrlw, hrlh⟩ := hrooms rl hrlmem
      have hpc_int : room_interior rl rl.center :=
        center_in_interior rl hrlb.1 hrlb.2.2.1 hrlw hrlh
      have hpc_b := center_bounds rl hrlb hrlw hrlh
      have hprev_pair : (st.prev_x, st.prev_y) = rl.center := by
        rw [hpx, hpy]
      have assemble : ∀ m2 : GameMap, wf_map m2 →
          (∀ a b : Int, walkable_at st.map a b → walkable_at m2 a b) →
          (∀ p : Int × Int, room_interior (Rect.new c.x c.y c.w c.h) p →
            walkable_at m2 p.1 p.2) →
          reachable (walkable_at m2) (st.prev_x, st.prev_y) (Rect.new c.x c.y c.w c.h).center →
          gen_inv
            { map := m2,
              rooms := st.rooms ++ [Rect.new c.x c.y c.w c.h],
              prev_x := ((Rect.new c.x c.y c.w c.h).center).1,
              prev_y := ((Rect.new c.x c.y c.w c.h).center).2,
              objects := place_objects (Rect.new c.x c.y c.w c.h) c.monsters st.objects } := by
        intro m2 hwf2 hmono hroomw hpath
        unfold gen_inv
        dsimp only
        obtain ⟨hp0eq, hp0len⟩ :=
          place_objects_get0 (Rect.new c.x c.y c.w c.h) c.monsters st.objects hlen
        refine ⟨hwf2, hp0len, ?_, ?_, ?_, ?_⟩
        · intro r hr
          rcases List.mem_append.mp hr with hr | hr
          · exact hrooms r hr
          · rw [List.mem_singleton] at hr
            subst hr
            exact ⟨hrb, hge2x, hge2y⟩
        · intro r hr p hp
          rcases List.mem_append.mp hr with hr | hr
          · exact hmono p.1 p.2 (hwalk r hr p hp)
          · rw [List.mem_singleton] at hr
            subst hr
            exact hroomw p hp
        · exact Or.inr ⟨Rect.new c.x c.y c.w c.h, List.getLast?_concat _, rfl, rfl⟩
        · intro r0' h0'
          have hr0' : r0' = r0 := by
            rw [List.head?_append, hr0] at h0'
            injection h0' with he
            exact he.symm
          refine ⟨?_, ?_⟩
          · intro po hpo
            rw [hp0eq] at hpo
            rw [hr0']
            exact hpos0 po hpo
          · intro r hr p hp
            rw [hr0']
            rcases List.mem_append.mp hr with hr | hr
            · exact reachable_mono hmono (hreach0 r hr p hp)
            · rw [List.mem_singleton] at hr
              subst hr
              have hstart : reachable (walkable_at m2) r0.center rl.center :=
                reachable_mono hmono (hreach0 rl hrlmem rl.center hpc_int)
              have hmid : reachable (walkable_at m2) rl.center
                  (Rect.new c.x c.y c.w c.h).center := by
                rw [← hprev_pair]
                exact hpath
              have hend : reachable (walkable_at m2) (Rect.new c.x c.y c.w c.h).center p :=
                reach_in_room _ _
                  (fun a b h1 h2 h3 h4 => hroomw (a, b) ⟨h1, h2, h3, h4⟩) _ p hnc_int hp
              exact (hstart.trans hmid).trans hend
      by_cases hcoin : c.coin = true
      · rw [if_pos hcoin]
        apply assemble
        · exact make_v_tunnel_wf _ _ _ _
            (make_h_tunnel_wf _ _ _ _ hwf1)
        · exact fun a b h =>
            make_v_tunnel_mono _ _ _ _ a b
              (make_h_tunnel_mono _ _ _ _ a b (make_room_mono _ _ a b h))
        · exact fun p hp =>
            make_v_tunnel_mono _ _ _ _ p.1 p.2
              (make_h_tunnel_mono _ _ _ _ p.1 p.2
                (make_room_cover _ st.map hwf p hp hrb))
        · have leg1 : reachable
              (walkable_at (make_v_tunnel st.prev_y ((Rect.new c.x c.y c.w c.h).center).2
                ((Rect.new c.x c.y c.w c.h).center).1
                (make_h_tunnel st.prev_x ((Rect.new c.x c.y c.w c.h).center).1 st.prev_y
                  (make_room (Rect.new c.x c.y c.w c.h) st.map))))
              (st.prev_x, st.prev_y) (((Rect.new c.x c.y c.w c.h).center).1, st.prev_y) := by
            apply reach_horiz
            intro x h1 h2
            apply make_v_tunnel_mono
            apply make_h_tunnel_cover _ _ _ _ hwf1 x h1 h2
            · omega
            · omega
            · omega
            · omega
          have leg2 : reachable
              (walkable_at (make_v_tunnel st.prev_y ((Rect.new c.x c.y c.w c.h).center).2
                ((Rect.new c.x c.y c.w c.h).center).1
                (make_h_tunnel st.prev_x ((Rect.new c.x c.y c.w c.h).center).1 st.prev_y
                  (make_room (Rect.new c.x c.y c.w c.h) st.map))))
              (((Rect.new c.x c.y c.w c.h).center).1, st.prev_y)
              (((Rect.new c.x c.y c.w c.h).center).1,
                ((Rect.new c.x c.y c.w c.h).center).2) := by
            apply reach_vert
            intro y h1 h2
            apply make_v_tunnel_cover _ _ _ _
              (make_h_tunnel_wf _ _ _ _ hwf1) y h1 h2
            · omega
            · omega
            · omega
            · omega
          have := leg1.trans leg2
          simpa using this
      · rw [if_neg hcoin]
        apply assemble
        · exact make_h_tunnel_wf _ _ _ _
            (make_v_tunnel_wf _ _ _ _ hwf1)
        · exact fun a b h =>
            make_h_tunnel_mono _ _ _ _ a b
              (make_v_tunnel_mono _ _ _ _ a b (make_room_mono _ _ a b h))
        · exact fun p hp =>
            make_h_tunnel_mono _ _ _ _ p.1 p.2
              (make_v_tunnel_mono _ _ _ _ p.1 p.2
                (make_room_cover _ st.map hwf p hp hrb))
        · have leg1 : reachable
              (walkable_at (make_h_tunnel st.prev_x ((Rect.new c.x c.y c.w c.h).center).1
                ((Rect.new c.x c.y c.w c.h).center).2
                (make_v_tunnel st.prev_y ((Rect.new c.x c.y c.w c.h).center).2 st.prev_x
                  (make_room (Rect.new c.x c.y c.w c.h) st.map))))
              (st.prev_x, st.prev_y)
              (st.prev_x, ((Rect.new c.x c.y c.w c.h).center).2) := by
            apply reach_vert
            intro y h1 h2
            apply make_h_tunnel_mono
            apply make_v_tunnel_cover _ _ _ _ hwf1 y h1 h2
            · omega
            · omega
            · omega
            · omega
          have leg2 : reachable
              (walkable_at (make_h_tunnel st.prev_x ((Rect.new c.x c.y c.w c.h).center).1
                ((Rect.new c.x c.y c.w c.h).center).2
                (make_v_tunnel st.prev_y ((Rect.new c.x c.y c.w c.h).center).2 st.prev_x
                  (make_room (Rect.new c.x c.y c.w c.h) st.map))))
              (st.prev_x, ((Rect.new c.x c.y c.w c.h).center).2)
              (((Rect.new c.x c.y c.w c.h).center).1,
                ((Rect.new c.x c.y c.w c.h).center).2) := by
            apply reach_horiz
            intro x h1 h2
            apply make_h_tunnel_cover _ _ _ _
              (make_v_tunnel_wf _ _ _ _ hwf1) x h1 h2
            · omega
            · omega
            · omega
            · omega
          have := leg1.trans leg2
          simpa using this

theorem make_map_gen_inv (choices : List RoomChoice) (objects : List Object)
    (hok : ∀ c ∈ choices, choice_ok c) (hlen : 0 < objects.length) :
    gen_inv (make_map choices objects) := by
  unfold make_map
  have hbase : gen_inv
      { map := initial_map, rooms := [], prev_x := 0, prev_y := 0, objects := objects } := by
    unfold gen_inv
    dsimp only
    refine ⟨wf_map_initial, hlen, ?_, ?_, Or.inl rfl, ?_⟩
    · intro r hr
      cases hr
    · intro r hr
      cases hr
    · intro r0 h0
      cases h0
  generalize hst : ({ map := initial_map, rooms := [], prev_x := 0, prev_y := 0, objects := objects } : GenState) = st at hbase
  clear hst hlen
  induction choices generalizing st with
  | nil => exact hbase
  | cons c cs ih =>
    rw [List.foldl_cons]
    exact ih (fun d hd => hok d (List.mem_cons_of_mem _ hd)) _
      (make_map_step_gen_inv st c (hok c (List.mem_cons_self _ _)) hbase)

/-- C6: when at least one room is accepted, the player spawn is the first
accepted room's center, and every cell of every accepted room's carved interior
is reachable from that center along walkable tiles of the generated map (the
L-shaped corridors carved between consecutive room centers, inclusive of both
endpoints, provide the connections). -/
theorem C6_reachable_from_spawn (choices : List RoomChoice) (objects : List Object)
    (hok : ∀ c ∈ choices, choice_ok c) (hlen : 0 < objects.length) (r0 : Rect)
    (h0 : (make_map choices objects).rooms.head? = some r0) :
    (∀ po : Object, (make_map choices objects).objects[PLAYER]? = some po →
      po.x = (r0.center).1 ∧ po.y = (r0.center).2) ∧
    (∀ r ∈ (make_map choices objects).rooms, ∀ p : Int × Int, room_interior r p →
      reachable (walkable_at (make_map choices objects).map) r0.center p) :=
  (make_map_gen_inv choices objects hok hlen).2.2.2.2.2 r0 h0

/-- C6 witness: the two sample rooms; the first room's center (4, 4) is the
spawn point. -/
theorem C6_reachable_from_spawn_witness :
    (∀ c ∈ [ex_choice_1, ex_choice_2], choice_ok c) ∧
    0 < ([ex_player_at_10_12] : List Object).length ∧
    (make_map [ex_choice_1, ex_choice_2] [ex_player_at_10_12]).rooms.head? =
      some (Rect.new 2 2 4 4) ∧
    ((∀ po : Object,
        (make_map [ex_choice_1, ex_choice_2] [ex_player_at_10_12]).objects[PLAYER]? = some po →
        po.x = ((Rect.new 2 2 4 4).center).1 ∧ po.y = ((Rect.new 2 2 4 4).center).2) ∧
      (∀ r ∈ (make_map [ex_choice_1, ex_choice_2] [ex_player_at_10_12]).rooms,
        ∀ p : Int × Int, room_interior r p →
        reachable (walkable_at (make_map [ex_choice_1, ex_choice_2] [ex_player_at_10_12]).map)
          (Rect.new 2 2 4 4).center p)) :=
  ⟨by decide, by decide, by decide,
    C6_reachable_from_spawn [ex_choice_1, ex_choice_2] [ex_player_at_10_12]
      (by decide) (by decide) (Rect.new 2 2 4 4) (by decide)⟩

end Roguelike
